import Mathlib

/-! # terraform-provider-kubernetes: RBAC converters and cluster role binding handlers

A shallow embedding of

* `kubernetes/structures_rbac.go` (namespace `StructuresRbac`),
* `kubernetes/resource_kubernetes_cluster_role_binding.go`
  (namespace `ResourceClusterRoleBinding` for its converters, top level for its handlers),
* the update strategy converters of `kubernetes/structures_stateful_set.go`
  (namespace `StructuresStatefulSet`),

followed by the properties of the specification that concern them.

Conventions of the embedding:

* a Go `interface{}` is a `Value`; a `map[string]interface{}` is an association list
  `Attrs` read with `mapIndex` (Go `m[k]`, which yields `nil` for a missing key) and written
  with `mapSet` (Go `m[k] = v`);
* a `[]interface{}` is the list of its elements (the code only takes `len` of it and ranges
  over it, so a nil and an empty `[]interface{}` behave alike);
* a typed slice such as `[]rbacv1.Subject` is a `Slice`, which keeps nil apart from empty;
* an unchecked type assertion `x.(T)` that fails is a Go panic: such code returns
  `Except Panic _`;
* a Go `error` is an `Option Error`, `none` being `nil`.
-/

/-! ## Dynamic values -/

/-- Dynamic Go values held in an `interface{}`: `nil`, `string`, `int`, `bool`,
a value of the named string type `appsv1.StatefulSetUpdateStrategyType`,
`[]interface{}` and `map[string]interface{}`. -/
inductive Value where
  | nil : Value
  | str : String → Value
  | int : Int → Value
  | bool : Bool → Value
  | strategyType : String → Value
  | list : List Value → Value
  | map : List (String × Value) → Value

/-- Go `map[string]interface{}` as an association list; the first binding of a key counts. -/
abbrev Attrs := List (String × Value)

mutual
/-- Decidable equality of dynamic values. -/
def Value.decEq : (a b : Value) → Decidable (a = b)
  | .nil, .nil => isTrue rfl
  | .str x, .str y =>
      if h : x = y then isTrue (by rw [h]) else isFalse (by intro e; cases e; exact h rfl)
  | .int x, .int y =>
      if h : x = y then isTrue (by rw [h]) else isFalse (by intro e; cases e; exact h rfl)
  | .bool x, .bool y =>
      if h : x = y then isTrue (by rw [h]) else isFalse (by intro e; cases e; exact h rfl)
  | .strategyType x, .strategyType y =>
      if h : x = y then isTrue (by rw [h]) else isFalse (by intro e; cases e; exact h rfl)
  | .list x, .list y =>
      match Value.decEqList x y with
      | isTrue h => isTrue (by rw [h])
      | isFalse h => isFalse (by intro e; cases e; exact h rfl)
  | .map x, .map y =>
      match Value.decEqFields x y with
      | isTrue h => isTrue (by rw [h])
      | isFalse h => isFalse (by intro e; cases e; exact h rfl)
  | .nil, .str _ | .nil, .int _ | .nil, .bool _ | .nil, .strategyType _
  | .nil, .list _ | .nil, .map _ => isFalse (by intro e; cases e)
  | .str _, .nil | .str _, .int _ | .str _, .bool _ | .str _, .strategyType _
  | .str _, .list _ | .str _, .map _ => isFalse (by intro e; cases e)
  | .int _, .nil | .int _, .str _ | .int _, .bool _ | .int _, .strategyType _
  | .int _, .list _ | .int _, .map _ => isFalse (by intro e; cases e)
  | .bool _, .nil | .bool _, .str _ | .bool _, .int _ | .bool _, .strategyType _
  | .bool _, .list _ | .bool _, .map _ => isFalse (by intro e; cases e)
  | .strategyType _, .nil | .strategyType _, .str _ | .strategyType _, .int _
  | .strategyType _, .bool _ | .strategyType _, .list _
  | .strategyType _, .map _ => isFalse (by intro e; cases e)
  | .list _, .nil | .list _, .str _ | .list _, .int _ | .list _, .bool _
  | .list _, .strategyType _ | .list _, .map _ => isFalse (by intro e; cases e)
  | .map _, .nil | .map _, .str _ | .map _, .int _ | .map _, .bool _
  | .map _, .strategyType _ | .map _, .list _ => isFalse (by intro e; cases e)
/-- Decidable equality of `[]interface{}` contents. -/
def Value.decEqList : (a b : List Value) → Decidable (a = b)
  | [], [] => isTrue rfl
  | [], _ :: _ => isFalse (by intro e; cases e)
  | _ :: _, [] => isFalse (by intro e; cases e)
  | x :: xs, y :: ys =>
      match Value.decEq x y, Value.decEqList xs ys with
      | isTrue h, isTrue t => isTrue (by rw [h, t])
      | isFalse h, _ => isFalse (by intro e; cases e; exact h rfl)
      | _, isFalse t => isFalse (by intro e; cases e; exact t rfl)
/-- Decidable equality of `map[string]interface{}` contents. -/
def Value.decEqFields : (a b : List (String × Value)) → Decidable (a = b)
  | [], [] => isTrue rfl
  | [], _ :: _ => isFalse (by intro e; cases e)
  | _ :: _, [] => isFalse (by intro e; cases e)
  | (k, x) :: xs, (j, y) :: ys =>
      if hk : k = j then
        match Value.decEq x y, Value.decEqFields xs ys with
        | isTrue h, isTrue t => isTrue (by rw [hk, h, t])
        | isFalse h, _ => isFalse (by intro e; cases e; exact h rfl)
        | _, isFalse t => isFalse (by intro e; cases e; exact t rfl)
      else isFalse (by intro e; cases e; exact hk rfl)
end

instance : DecidableEq Value := Value.decEq

/-- Go panic raised by a failed unchecked type assertion `x.(T)`; `want` is `T`. -/
inductive Panic where
  | interfaceConversion (want : String) : Panic
  deriving DecidableEq

deriving instance DecidableEq for Except

/-- Go `m[k]` on a `map[string]interface{}`: the bound value, or `nil` when `k` is absent. -/
def mapIndex (m : Attrs) (k : String) : Value :=
  (List.lookup k m).getD Value.nil

/-- Go `_, ok := m[k]`: whether `k` is a key of `m`. -/
def mapHas (m : Attrs) (k : String) : Bool :=
  (List.lookup k m).isSome

/-- Go `m[k] = v`: rebinds `k` when it is a key of `m`, adds the binding otherwise. -/
def mapSet : Attrs → String → Value → Attrs
  | [], k, v => [(k, v)]
  | (j, w) :: m, k, v => if j == k then (k, v) :: m else (j, w) :: mapSet m k v

/-- The checked assertion `s, ok := x.(string)`: `none` is `ok == false`. -/
def asString : Value → Option String
  | .str s => some s
  | _ => none

/-- The unchecked assertion `x.(string)`, which panics unless `x` holds a `string`. -/
def assertString : Value → Except Panic String
  | .str s => .ok s
  | _ => .error (.interfaceConversion "string")

/-- The unchecked assertion `x.(map[string]interface{})`. -/
def assertMap : Value → Except Panic Attrs
  | .map m => .ok m
  | _ => .error (.interfaceConversion "map[string]interface {}")

/-- Go `xs[i].f = ...` on a slice of structs: rewrites the element at index `i`. -/
def updateAt {α : Type} : List α → Nat → (α → α) → List α
  | [], _, _ => []
  | x :: xs, 0, f => f x :: xs
  | x :: xs, i + 1, f => x :: updateAt xs i f

/-- A typed Go slice: `nil`, or a (possibly empty) allocated slice with its elements. -/
inductive Slice (α : Type) where
  | nil : Slice α
  | mk (elems : List α) : Slice α
  deriving DecidableEq

/-- Elements of a slice; a nil slice has none. -/
def Slice.toList {α : Type} : Slice α → List α
  | .nil => []
  | .mk elems => elems

/-- Go `len(s)`. -/
def Slice.len {α : Type} (s : Slice α) : Nat := s.toList.length

/-- Go `s == nil`. -/
def Slice.isNil {α : Type} : Slice α → Bool
  | .nil => true
  | .mk _ => false

/-! ## RBAC API types (`k8s.io/client-go/pkg/apis/rbac/v1beta1`) -/

/-- The API type `rbacv1.RoleRef`; the zero value has every field empty. -/
structure RoleRef where
  APIGroup : String := ""
  Kind : String := ""
  Name : String := ""
  deriving DecidableEq

/-- The API type `rbacv1.Subject`; the zero value has every field empty. -/
structure Subject where
  Kind : String := ""
  APIGroup : String := ""
  Name : String := ""
  Namespace : String := ""
  deriving DecidableEq

/-! ## `structures_rbac.go` -/

namespace StructuresRbac

/-- `flattenRoleRef` of `structures_rbac.go`. -/
def flattenRoleRef (inp : RoleRef) : Value :=
  let att : Attrs := []
  let att := mapSet att "api_group" (.str inp.APIGroup)
  let att := mapSet att "kind" (.str inp.Kind)
  let att := mapSet att "name" (.str inp.Name)
  .map att

/-- The body of the loop of `flattenSubjects`: the map `obj` built for one subject `v`. -/
def flattenSubject (v : Subject) : Attrs :=
  let obj : Attrs := []
  let obj := mapSet obj "kind" (.str v.Kind)
  let obj := if v.APIGroup != "" then mapSet obj "api_group" (.str v.APIGroup) else obj
  let obj := mapSet obj "name" (.str v.Name)
  let obj := mapSet obj "namespace" (.str v.Namespace)
  obj

/-- The loop `for i, v := range in { ...; att[i] = obj }` of `flattenSubjects`, from index `i`
over the remaining subjects. -/
def flattenSubjectsLoop : List Subject → Nat → List Value → List Value
  | [], _, att => att
  | v :: rest, i, att => flattenSubjectsLoop rest (i + 1) (att.set i (.map (flattenSubject v)))

/-- `flattenSubjects` of `structures_rbac.go`: `att := make([]interface{}, len(in))`, then the
loop. -/
def flattenSubjects (inp : Slice Subject) : List Value :=
  flattenSubjectsLoop inp.toList 0 (List.replicate inp.len Value.nil)

/-- `expandRoleRef` of `structures_rbac.go`: three unchecked assertions, evaluated in field
order. -/
def expandRoleRef (inp : Attrs) : Except Panic RoleRef := do
  let apiGroup ← assertString (mapIndex inp "api_group")
  let kind ← assertString (mapIndex inp "kind")
  let name ← assertString (mapIndex inp "name")
  pure { APIGroup := apiGroup, Kind := kind, Name := name }

/-- The body of the loop of the tolerant `expandSubjects`: four checked assertions, each
writing one field of `subjects[i]` when it succeeds. -/
def expandSubjectStep (subject : Attrs) (i : Nat) (subjects : List Subject) : List Subject :=
  let subjects := match asString (mapIndex subject "kind") with
    | some kind => updateAt subjects i (fun x => { x with Kind := kind })
    | none => subjects
  let subjects := match asString (mapIndex subject "api_group") with
    | some apiGroup => updateAt subjects i (fun x => { x with APIGroup := apiGroup })
    | none => subjects
  let subjects := match asString (mapIndex subject "name") with
    | some name => updateAt subjects i (fun x => { x with Name := name })
    | none => subjects
  let subjects := match asString (mapIndex subject "namespace") with
    | some ns => updateAt subjects i (fun x => { x with Namespace := ns })
    | none => subjects
  subjects

/-- The loop `for i, v := range s` of the tolerant `expandSubjects`, from index `i`. -/
def expandSubjectsLoop : List Value → Nat → List Subject → Except Panic (List Subject)
  | [], _, subjects => .ok subjects
  | v :: rest, i, subjects =>
      match assertMap v with
      | .error p => .error p
      | .ok subject => expandSubjectsLoop rest (i + 1) (expandSubjectStep subject i subjects)

/-- `expandSubjects` of `structures_rbac.go`. -/
def expandSubjects (s : List Value) : Except Panic (Slice Subject) :=
  if s.length = 0 then .ok (.mk [])
  else
    match expandSubjectsLoop s 0 (List.replicate s.length {}) with
    | .error p => .error p
    | .ok subjects => .ok (.mk subjects)

end StructuresRbac

/-! ## Converters of `resource_kubernetes_cluster_role_binding.go` -/

namespace ResourceClusterRoleBinding

/-- `expandRoleRef` of `resource_kubernetes_cluster_role_binding.go`. -/
def expandRoleRef (inp : Attrs) : Except Panic RoleRef := do
  let apiGroup ← assertString (mapIndex inp "api_group")
  let kind ← assertString (mapIndex inp "kind")
  let name ← assertString (mapIndex inp "name")
  pure { APIGroup := apiGroup, Kind := kind, Name := name }

/-- The body of the loop of the assertion-based `expandSubjects`: `v` must hold a map, and
each of the four keys must hold a string, or the assertion panics. -/
def expandSubjectStep (v : Value) (i : Nat) (su : List Subject) : Except Panic (List Subject) := do
  let sub ← assertMap v
  let apiGroup ← assertString (mapIndex sub "api_group")
  let su := updateAt su i (fun x => { x with APIGroup := apiGroup })
  let kind ← assertString (mapIndex sub "kind")
  let su := updateAt su i (fun x => { x with Kind := kind })
  let name ← assertString (mapIndex sub "name")
  let su := updateAt su i (fun x => { x with Name := name })
  let ns ← assertString (mapIndex sub "namespace")
  let su := updateAt su i (fun x => { x with Namespace := ns })
  pure su

/-- The loop `for i, v := range subjs` of the assertion-based `expandSubjects`. -/
def expandSubjectsLoop : List Value → Nat → List Subject → Except Panic (List Subject)
  | [], _, su => .ok su
  | v :: rest, i, su =>
      match expandSubjectStep v i su with
      | .error p => .error p
      | .ok su1 => expandSubjectsLoop rest (i + 1) su1

/-- `expandSubjects` of `resource_kubernetes_cluster_role_binding.go`. -/
def expandSubjects (subjs : List Value) : Except Panic (Slice Subject) :=
  if subjs.length = 0 then .ok (.mk [])
  else
    match expandSubjectsLoop subjs 0 (List.replicate subjs.length {}) with
    | .error p => .error p
    | .ok su => .ok (.mk su)

end ResourceClusterRoleBinding

/-! ## Lifecycle handlers of `resource_kubernetes_cluster_role_binding.go` -/

/-- A Go `error` value returned by the Kubernetes client or by a helper: a
`*errors.StatusError` with its `ErrStatus.Code`, or an error of any other dynamic type. -/
inductive Error where
  | status (code : Int) (message : String) : Error
  | other (message : String) : Error
  deriving DecidableEq

/-- The fields of `metav1.ObjectMeta` that the provider reads or writes. -/
structure ObjectMeta where
  Name : String := ""
  GenerateName : String := ""
  Namespace : String := ""
  SelfLink : String := ""
  UID : String := ""
  ResourceVersion : String := ""
  Generation : Int := 0
  Labels : List (String × String) := []
  Annotations : List (String × String) := []
  deriving DecidableEq

/-- The API type `rbacv1.ClusterRoleBinding`. -/
structure ClusterRoleBinding where
  ObjectMeta : ObjectMeta := {}
  RoleRef : RoleRef := {}
  Subjects : Slice Subject := .nil
  deriving DecidableEq

/-- The `schema.ResourceData` of one resource: its identifier (`d.Id()`, `d.SetId`) and its
attributes (`d.Get`, `d.Set`). -/
structure ResourceData where
  Id : String := ""
  attrs : Attrs := []
  deriving DecidableEq

/-- A call made to `conn.RbacV1beta1().ClusterRoleBindings()`. -/
inductive Call where
  | create (obj : ClusterRoleBinding) : Call
  | get (name : String) : Call
  | delete (name : String) : Call
  deriving DecidableEq

/-- The Kubernetes client `conn` over a server in state `σ`: each operation answers from the
server state and yields the server state after the call. `Delete` answers with its error. -/
structure Clientset (σ : Type) where
  Create : ClusterRoleBinding → σ → Except Error ClusterRoleBinding × σ
  Get : String → σ → Except Error ClusterRoleBinding × σ
  Delete : String → σ → Option Error × σ

/-- Functions the handlers call that are defined outside the embedded files: the identifier
codec (`idParts`, `buildId`), the metadata converters, and the error `d.Set` reports when the
schema rejects a value. -/
structure Helpers where
  idParts : String → Except Error (String × String)
  buildId : ObjectMeta → String
  expandMetadata : List Value → ObjectMeta
  flattenMetadata : ObjectMeta → ResourceData → Value
  setError : String → Value → Option Error

/-- What a handler leaves behind: its return value, the resource data, the server state and
the client calls it made, in order. -/
structure Outcome (σ ρ : Type) where
  ret : ρ
  d : ResourceData
  srv : σ
  calls : List Call
  deriving DecidableEq

/-- `d.Set(key, value)`: stores the attribute unless the schema rejects the value. -/
def ResourceData.Set (h : Helpers) (d : ResourceData) (key : String) (value : Value) :
    Option Error × ResourceData :=
  match h.setError key value with
  | some err => (some err, d)
  | none => (none, { d with attrs := mapSet d.attrs key value })

/-- `d.SetId(id)`. -/
def ResourceData.SetId (d : ResourceData) (id : String) : ResourceData :=
  { d with Id := id }

/-- `resourceKubernetesClusterRoleBindingRead`. -/
def resourceKubernetesClusterRoleBindingRead {σ : Type} (h : Helpers) (conn : Clientset σ)
    (d : ResourceData) (srv : σ) : Outcome σ (Option Error) :=
  match h.idParts d.Id with
  | .error err => { ret := some err, d := d, srv := srv, calls := [] }
  | .ok (_, name) =>
    match conn.Get name srv with
    | (.error err, srv1) => { ret := some err, d := d, srv := srv1, calls := [.get name] }
    | (.ok crb, srv1) =>
      match d.Set h "metadata" (h.flattenMetadata crb.ObjectMeta d) with
      | (some err, d1) => { ret := some err, d := d1, srv := srv1, calls := [.get name] }
      | (none, d1) => { ret := none, d := d1, srv := srv1, calls := [.get name] }

/-- `resourceKubernetesClusterRoleBindingExists`; the return value is the pair
`(bool, error)`. -/
def resourceKubernetesClusterRoleBindingExists {σ : Type} (h : Helpers) (conn : Clientset σ)
    (d : ResourceData) (srv : σ) : Outcome σ (Bool × Option Error) :=
  match h.idParts d.Id with
  | .error err => { ret := (false, some err), d := d, srv := srv, calls := [] }
  | .ok (_, name) =>
    match conn.Get name srv with
    | (.error err, srv1) =>
      match err with
      | .status code _ =>
        if code = 404 then { ret := (false, none), d := d, srv := srv1, calls := [.get name] }
        else { ret := (true, some err), d := d, srv := srv1, calls := [.get name] }
      | .other _ => { ret := (true, some err), d := d, srv := srv1, calls := [.get name] }
    | (.ok _, srv1) => { ret := (true, none), d := d, srv := srv1, calls := [.get name] }

/-- `resourceKubernetesClusterRoleBindingDelete`. -/
def resourceKubernetesClusterRoleBindingDelete {σ : Type} (h : Helpers) (conn : Clientset σ)
    (d : ResourceData) (srv : σ) : Outcome σ (Option Error) :=
  match h.idParts d.Id with
  | .error err => { ret := some err, d := d, srv := srv, calls := [] }
  | .ok (_, name) =>
    match conn.Delete name srv with
    | (some err, srv1) => { ret := some err, d := d, srv := srv1, calls := [.delete name] }
    | (none, srv1) => { ret := none, d := d.SetId "", srv := srv1, calls := [.delete name] }

/-! ## Identifier codec and a reference server, for running the handlers -/

/-- Pieces of an identifier between its slashes. -/
def splitSlash : List Char → List (List Char)
  | [] => [[]]
  | c :: cs =>
    if c = '/' then [] :: splitSlash cs
    else
      match splitSlash cs with
      | [] => [[c]]
      | p :: ps => (c :: p) :: ps

/-- Modelled from the spec: `buildId` is defined outside the embedded files; the identifier
is `<namespace>/<name>`. -/
def buildId (m : ObjectMeta) : String :=
  m.Namespace ++ "/" ++ m.Name

/-- Modelled from the spec: `idParts` is defined outside the embedded files; it parses an
identifier `<namespace>/<name>` into namespace and name and reports any other identifier as
malformed. -/
def idParts (id : String) : Except Error (String × String) :=
  match splitSlash id.data with
  | [ns, name] => .ok (String.mk ns, String.mk name)
  | _ => .error (.other ("Unexpected ID format: " ++ id))

/-- Helpers with the identifier codec above; metadata is flattened to its name and namespace,
and `d.Set` accepts every value. -/
def codecHelpers : Helpers where
  idParts := idParts
  buildId := buildId
  expandMetadata := fun _ => {}
  flattenMetadata := fun m _ =>
    .list [.map [("name", .str m.Name), ("namespace", .str m.Namespace)]]
  setError := fun _ _ => none

/-- A reference server: the stored cluster role bindings, looked up by name. `Get` and
`Delete` of a missing name answer with a 404 status error; `Create` of an existing name
answers with a 409 status error. -/
def listClient : Clientset (List ClusterRoleBinding) where
  Create := fun obj srv =>
    if srv.any (fun o => o.ObjectMeta.Name == obj.ObjectMeta.Name) then
      (.error (.status 409 "already exists"), srv)
    else (.ok obj, srv ++ [obj])
  Get := fun name srv =>
    match srv.find? (fun o => o.ObjectMeta.Name == name) with
    | some o => (.ok o, srv)
    | none => (.error (.status 404 "not found"), srv)
  Delete := fun name srv =>
    if srv.any (fun o => o.ObjectMeta.Name == name) then
      (none, srv.filter (fun o => !(o.ObjectMeta.Name == name)))
    else (some (.status 404 "not found"), srv)

/-- A client whose every call fails with the error `err`, whatever the server holds. -/
def failingClient (err : Error) : Clientset Unit where
  Create := fun _ srv => (.error err, srv)
  Get := fun _ srv => (.error err, srv)
  Delete := fun _ srv => (some err, srv)

/-- The stored binding used to run the handlers on the reference server. -/
def adminBinding : ClusterRoleBinding :=
  { ObjectMeta := { Name := "admin" },
    RoleRef := { APIGroup := "rbac.authorization.k8s.io", Kind := "ClusterRole",
                 Name := "cluster-admin" },
    Subjects := .mk [{ Kind := "User", Name := "alice" }] }

/-! ## What the loop bodies of `expandSubjects` compute for one element -/

/-- The subject the loop body of the tolerant `expandSubjects` leaves in a zero slot for the
map `subject`: each field is the string under its key, or stays empty when the checked
assertion fails. -/
def StructuresRbac.expandedSubject (subject : Attrs) : Subject :=
  { Kind := (asString (mapIndex subject "kind")).getD "",
    APIGroup := (asString (mapIndex subject "api_group")).getD "",
    Name := (asString (mapIndex subject "name")).getD "",
    Namespace := (asString (mapIndex subject "namespace")).getD "" }

/-- The subject the loop body of the assertion-based `expandSubjects` leaves in a zero slot
for the element `v`, or the panic of its first failing assertion. -/
def ResourceClusterRoleBinding.assertedSubject (v : Value) : Except Panic Subject :=
  match assertMap v with
  | .error p => .error p
  | .ok sub =>
    match assertString (mapIndex sub "api_group") with
    | .error p => .error p
    | .ok apiGroup =>
      match assertString (mapIndex sub "kind") with
      | .error p => .error p
      | .ok kind =>
        match assertString (mapIndex sub "name") with
        | .error p => .error p
        | .ok name =>
          match assertString (mapIndex sub "namespace") with
          | .error p => .error p
          | .ok ns => .ok { Kind := kind, APIGroup := apiGroup, Name := name, Namespace := ns }

/-- Element-wise `assertedSubject`, stopping at the first panic. -/
def ResourceClusterRoleBinding.assertedSubjects : List Value → Except Panic (List Subject)
  | [] => .ok []
  | v :: rest =>
    match ResourceClusterRoleBinding.assertedSubject v with
    | .error p => .error p
    | .ok x =>
      match ResourceClusterRoleBinding.assertedSubjects rest with
      | .error p => .error p
      | .ok xs => .ok (x :: xs)

/-- A subject map in which `kind`, `name`, `namespace` and `api_group` are all present as
strings. -/
def HasSubjectStrings (m : Attrs) : Prop :=
  ∃ kind name ns apiGroup : String,
    mapIndex m "kind" = .str kind ∧ mapIndex m "name" = .str name ∧
    mapIndex m "namespace" = .str ns ∧ mapIndex m "api_group" = .str apiGroup

/-- The struct field `field` was filled from key `k` of `m` the tolerant way: a string under
`k` is copied unchanged, and the field keeps its zero value, the empty string, when `k` is
absent or bound to something that is not a string. -/
def CopiedOrZero (m : Attrs) (k : String) (field : String) : Prop :=
  (∀ s, mapIndex m k = .str s → field = s) ∧
  (mapHas m k = false → field = "") ∧
  ((∀ s, mapIndex m k ≠ .str s) → field = "")

/-! ## Create handler of `resource_kubernetes_cluster_role_binding.go` -/

/-- The unchecked assertion `x.([]interface{})`. -/
def assertList : Value → Except Panic (List Value)
  | .list l => .ok l
  | _ => .error (.interfaceConversion "[]interface {}")

/-- The unchecked assertion `x.(int)`. -/
def assertInt : Value → Except Panic Int
  | .int n => .ok n
  | _ => .error (.interfaceConversion "int")

/-- The zero value of the type the resource schema declares for an attribute: an empty list for
the `TypeList` attributes `metadata` and `subject`, an empty map for the `TypeMap` attribute
`role_ref`; a key the schema does not declare has none. -/
def schemaZeroValue : String → Value
  | "metadata" => .list []
  | "role_ref" => .map []
  | "subject" => .list []
  | _ => .nil

/-- `d.Get(key)`: the attribute stored under `key`, or the zero value of its declared type
when the resource data holds none. -/
def ResourceData.Get (d : ResourceData) (key : String) : Value :=
  match List.lookup key d.attrs with
  | some v => v
  | none => schemaZeroValue key

/-- `resourceKubernetesClusterRoleBindingCreate`. The package declares `expandSubjects`
twice, so the handler takes the declaration in use as `expandSubjects`; `expandRoleRef` is
the same function in both files. A failed assertion panics before the client is called, so
a panic leaves no outcome. -/
def resourceKubernetesClusterRoleBindingCreate {σ : Type} (h : Helpers)
    (expandSubjects : List Value → Except Panic (Slice Subject)) (conn : Clientset σ)
    (d : ResourceData) (srv : σ) : Except Panic (Outcome σ (Option Error)) :=
  match assertList (d.Get "metadata") with
  | .error p => .error p
  | .ok metadataCfg =>
    let metadata := h.expandMetadata metadataCfg
    match assertMap (d.Get "role_ref") with
    | .error p => .error p
    | .ok roleRefCfg =>
      match ResourceClusterRoleBinding.expandRoleRef roleRefCfg with
      | .error p => .error p
      | .ok roleRef =>
        match assertList (d.Get "subject") with
        | .error p => .error p
        | .ok subjectCfg =>
          match expandSubjects subjectCfg with
          | .error p => .error p
          | .ok subjects =>
            let clusterRoleBinding : ClusterRoleBinding :=
              { ObjectMeta := metadata, RoleRef := roleRef, Subjects := subjects }
            match conn.Create clusterRoleBinding srv with
            | (.error err, srv1) =>
              .ok { ret := some err, d := d, srv := srv1,
                    calls := [.create clusterRoleBinding] }
            | (.ok out, srv1) =>
              let r := resourceKubernetesClusterRoleBindingRead h conn
                (d.SetId (h.buildId out.ObjectMeta)) srv1
              .ok { ret := r.ret, d := r.d, srv := r.srv,
                    calls := .create clusterRoleBinding :: r.calls }

/-! ## `structures_stateful_set.go`: update strategy converters -/

/-- The API type `appsv1.RollingUpdateStatefulSetStrategy`; `Partition` is a `*int32`, `none`
being the nil pointer. -/
structure RollingUpdateStatefulSetStrategy where
  Partition : Option Int := none
  deriving DecidableEq

/-- The API type `appsv1.StatefulSetUpdateStrategy`; `Type_` is the field `Type`, a
`StatefulSetUpdateStrategyType` (a named string type) and `RollingUpdate` a pointer, `none`
being nil. -/
structure StatefulSetUpdateStrategy where
  Type_ : String := ""
  RollingUpdate : Option RollingUpdateStatefulSetStrategy := none
  deriving DecidableEq

/-- The constant `appsv1.RollingUpdateStatefulSetStrategyType` of `k8s.io/api/apps/v1`. -/
def RollingUpdateStatefulSetStrategyType : String := "RollingUpdate"

/-- The Go conversion `int32(n)` of an `int`: `n` reduced modulo `2^32` into the signed
32-bit range. -/
def toInt32 (n : Int) : Int :=
  (n + 2 ^ 31) % 2 ^ 32 - 2 ^ 31

/-- Whether a value is one an `int32` can hold. -/
def IsInt32 (n : Int) : Prop :=
  -2 ^ 31 ≤ n ∧ n ≤ 2 ^ 31 - 1

instance (n : Int) : Decidable (IsInt32 n) :=
  inferInstanceAs (Decidable (-2 ^ 31 ≤ n ∧ n ≤ 2 ^ 31 - 1))

/-- Modelled from the spec: `ptrToInt32` is defined outside the embedded files; it returns a
pointer to its argument, which is never nil. -/
def ptrToInt32 (i : Int) : Option Int :=
  some i

namespace StructuresStatefulSet

/-- `flattenStatefulSetStrategyRollingUpdate`, on the struct its pointer argument points to
(the only caller passes a non-nil pointer); `int(*in.Partition)` keeps the value. -/
def flattenStatefulSetStrategyRollingUpdate (inp : RollingUpdateStatefulSetStrategy) :
    List Value :=
  let att : Attrs := []
  let att := match inp.Partition with
    | some partition => mapSet att "partition" (.int partition)
    | none => att
  [.map att]

/-- `flattenStatefulSetUpdateStrategy`; `in.Type` is stored with its own type,
`StatefulSetUpdateStrategyType`. The argument `d` is not used by the code. -/
def flattenStatefulSetUpdateStrategy (inp : StatefulSetUpdateStrategy) (_d : ResourceData) :
    List Value :=
  let att : Attrs := []
  let att := if inp.Type_ != "" then mapSet att "type" (.strategyType inp.Type_) else att
  let att := match inp.RollingUpdate with
    | some ru => mapSet att "rolling_update" (.list (flattenStatefulSetStrategyRollingUpdate ru))
    | none => att
  [.map att]

/-- `expandRollingUpdateStatefulSetStrategy`; the result is the struct behind the returned
pointer `&obj`, which is never nil. -/
def expandRollingUpdateStatefulSetStrategy (p : List Value) :
    Except Panic RollingUpdateStatefulSetStrategy :=
  let obj : RollingUpdateStatefulSetStrategy := {}
  match p with
  | [] => .ok obj
  | first :: _ =>
    if first = Value.nil then .ok obj
    else
      match assertMap first with
      | .error e => .error e
      | .ok inp =>
        match List.lookup "partition" inp with
        | some v =>
          match assertInt v with
          | .error e => .error e
          | .ok n => .ok { obj with Partition := ptrToInt32 (toInt32 n) }
        | none => .ok obj

/-- `expandStatefulSetUpdateStrategy`. -/
def expandStatefulSetUpdateStrategy (p : List Value) : Except Panic StatefulSetUpdateStrategy :=
  let obj : StatefulSetUpdateStrategy := {}
  match p with
  | [] => .ok obj
  | first :: _ =>
    if first = Value.nil then .ok obj
    else
      match assertMap first with
      | .error e => .error e
      | .ok inp =>
        let typed : Except Panic StatefulSetUpdateStrategy :=
          match List.lookup "type" inp with
          | some v =>
            match assertString v with
            | .error e => .error e
            | .ok t => .ok { obj with Type_ := t }
          | none => .ok obj
        match typed with
        | .error e => .error e
        | .ok obj =>
          if obj.Type_ = RollingUpdateStatefulSetStrategyType then
            match List.lookup "rolling_update" inp with
            | some v =>
              match assertList v with
              | .error e => .error e
              | .ok l =>
                match expandRollingUpdateStatefulSetStrategy l with
                | .error e => .error e
                | .ok ru => .ok { obj with RollingUpdate := some ru }
            | none => .ok obj
          else .ok obj

end StructuresStatefulSet

/-- The flattened block with its `StatefulSetUpdateStrategyType` values held as plain
strings. -/
def typeAsString : Value → Value
  | .strategyType s => .str s
  | .map m => .map (m.map (fun kv => (kv.1, match kv.2 with
      | .strategyType s => .str s
      | w => w)))
  | v => v

/-- Helpers as `codecHelpers`, with a metadata expander that reads `name` and `namespace` from
the first block. -/
def configHelpers : Helpers :=
  { codecHelpers with
    expandMetadata := fun l =>
      match l with
      | .map m :: _ =>
        { Name := (asString (mapIndex m "name")).getD "",
          Namespace := (asString (mapIndex m "namespace")).getD "" }
      | _ => {} }

/-- A configuration of the binding `admin`: one user subject, all keys given. -/
def adminConfig : ResourceData :=
  { Id := "",
    attrs := [("metadata", .list [.map [("name", .str "admin")]]),
              ("role_ref", .map [("api_group", .str "rbac.authorization.k8s.io"),
                                 ("kind", .str "ClusterRole"), ("name", .str "cluster-admin")]),
              ("subject", .list [.map [("api_group", .str ""), ("kind", .str "User"),
                                       ("name", .str "alice"), ("namespace", .str "")]])] }

/-- The partition of the strategy, when there is one, is a value an `int32` can hold, as the
field type `*int32` requires. -/
def StatefulSetUpdateStrategy.PartitionInt32 (x : StatefulSetUpdateStrategy) : Prop :=
  ∀ ru n, x.RollingUpdate = some ru → ru.Partition = some n → IsInt32 n

/-- The configuration of the binding `admin` with a `role_ref` that gives only the required
`name`; the schema accepts it, `api_group` being optional and `kind` not declared. -/
def nameOnlyRoleRefConfig : ResourceData :=
  { Id := "",
    attrs := [("metadata", .list [.map [("name", .str "admin")]]),
              ("role_ref", .map [("name", .str "cluster-admin")]),
              ("subject", .list [.map [("api_group", .str ""), ("kind", .str "User"),
                                       ("name", .str "alice"), ("namespace", .str "")]])] }

/-! ## Exists: interpretation of the server's answer -/

/-- C1: for an identifier that parses to `name`, whatever `Get name` answers (an object, a
status error with any code, any other error), `Exists` returns `(false, nil)` exactly when
`Get` failed with a status error whose code is 404. -/
theorem exists_false_nil_iff_get_404 {σ : Type} (h : Helpers) (conn : Clientset σ)
    (d : ResourceData) (srv : σ) (ns name : String)
    (hid : h.idParts d.Id = .ok (ns, name)) :
    (resourceKubernetesClusterRoleBindingExists h conn d srv).ret = (false, none) ↔
      ∃ msg, (conn.Get name srv).1 = .error (.status 404 msg) := by
  unfold resourceKubernetesClusterRoleBindingExists
  rw [hid]
  rcases hget : conn.Get name srv with ⟨r, srv1⟩
  cases r with
  | ok crb => simp [hget]
  | error err =>
    cases err with
    | other msg => simp [hget]
    | status code msg =>
      by_cases hc : code = 404
      · subst hc; simp [hget]
      · simp [hget, hc]

/-- C1 on the reference server: the identifier `/admin` parses, nothing is stored, `Get`
answers 404 and `Exists` returns `(false, nil)`. -/
theorem exists_false_nil_iff_get_404_witness :
    codecHelpers.idParts ({ Id := "/admin" } : ResourceData).Id = .ok ("", "admin") ∧
    ((resourceKubernetesClusterRoleBindingExists codecHelpers listClient
        { Id := "/admin" } []).ret = (false, none) ↔
      ∃ msg, (listClient.Get "admin" []).1 = .error (.status 404 msg)) :=
  ⟨by decide,
   exists_false_nil_iff_get_404 codecHelpers listClient { Id := "/admin" } [] "" "admin"
     (by decide)⟩

/-- C2: for an identifier that parses to `name`, when `Get name` fails with an error that is
not a 404 status error `Exists` returns `(true, err)` with that very error, and when `Get`
succeeds it returns `(true, nil)`. -/
theorem exists_true_on_other_error_or_success {σ : Type} (h : Helpers) (conn : Clientset σ)
    (d : ResourceData) (srv : σ) (ns name : String)
    (hid : h.idParts d.Id = .ok (ns, name)) :
    (∀ err, (conn.Get name srv).1 = .error err → (∀ msg, err ≠ .status 404 msg) →
        (resourceKubernetesClusterRoleBindingExists h conn d srv).ret = (true, some err)) ∧
    (∀ crb, (conn.Get name srv).1 = .ok crb →
        (resourceKubernetesClusterRoleBindingExists h conn d srv).ret = (true, none)) := by
  unfold resourceKubernetesClusterRoleBindingExists
  rw [hid]
  rcases hget : conn.Get name srv with ⟨r, srv1⟩
  cases r with
  | ok crb => simp [hget]
  | error err =>
    cases err with
    | other msg => simp [hget]
    | status code msg =>
      by_cases hc : code = 404
      · subst hc; simp [hget]
      · simp [hget, hc]

/-- C2 run three times: a 500 status error and a transport error are returned as
`(true, err)`, and a stored binding gives `(true, nil)`. -/
theorem exists_true_on_other_error_or_success_witness :
    codecHelpers.idParts ({ Id := "/admin" } : ResourceData).Id = .ok ("", "admin") ∧
    (resourceKubernetesClusterRoleBindingExists codecHelpers
        (failingClient (.status 500 "internal error")) { Id := "/admin" } ()).ret
      = (true, some (.status 500 "internal error")) ∧
    (resourceKubernetesClusterRoleBindingExists codecHelpers
        (failingClient (.other "connection refused")) { Id := "/admin" } ()).ret
      = (true, some (.other "connection refused")) ∧
    (resourceKubernetesClusterRoleBindingExists codecHelpers listClient
        { Id := "/admin" } [adminBinding]).ret = (true, none) :=
  ⟨by decide,
   (exists_true_on_other_error_or_success codecHelpers
      (failingClient (.status 500 "internal error")) { Id := "/admin" } () "" "admin"
      (by decide)).1 _ rfl (by intro msg; simp),
   (exists_true_on_other_error_or_success codecHelpers
      (failingClient (.other "connection refused")) { Id := "/admin" } () "" "admin"
      (by decide)).1 _ rfl (by intro msg; simp),
   (exists_true_on_other_error_or_success codecHelpers listClient
      { Id := "/admin" } [adminBinding] "" "admin" (by decide)).2 adminBinding (by decide)⟩

/-! ## Malformed identifiers -/

/-- C10: when `idParts` fails on the stored identifier, each of `Read`, `Exists` and `Delete`
returns that error (`Exists` returns `(false, err)`), makes no client call, and leaves the
resource data (identifier and attributes) and the server untouched. -/
theorem malformed_id_is_local_error {σ : Type} (h : Helpers) (conn : Clientset σ)
    (d : ResourceData) (srv : σ) (err : Error)
    (hid : h.idParts d.Id = .error err) :
    resourceKubernetesClusterRoleBindingRead h conn d srv
      = { ret := some err, d := d, srv := srv, calls := [] } ∧
    resourceKubernetesClusterRoleBindingExists h conn d srv
      = { ret := (false, some err), d := d, srv := srv, calls := [] } ∧
    resourceKubernetesClusterRoleBindingDelete h conn d srv
      = { ret := some err, d := d, srv := srv, calls := [] } := by
  unfold resourceKubernetesClusterRoleBindingRead resourceKubernetesClusterRoleBindingExists
    resourceKubernetesClusterRoleBindingDelete
  rw [hid]
  exact ⟨rfl, rfl, rfl⟩

/-- C10 on the reference server: the identifier `admin` has no slash, so the three handlers
stop with the codec's error although a binding of that name is stored. -/
theorem malformed_id_is_local_error_witness :
    codecHelpers.idParts ({ Id := "admin" } : ResourceData).Id
      = .error (.other "Unexpected ID format: admin") ∧
    resourceKubernetesClusterRoleBindingRead codecHelpers listClient
        { Id := "admin" } [adminBinding]
      = { ret := some (.other "Unexpected ID format: admin"), d := { Id := "admin" },
          srv := [adminBinding], calls := [] } ∧
    resourceKubernetesClusterRoleBindingExists codecHelpers listClient
        { Id := "admin" } [adminBinding]
      = { ret := (false, some (.other "Unexpected ID format: admin")), d := { Id := "admin" },
          srv := [adminBinding], calls := [] } ∧
    resourceKubernetesClusterRoleBindingDelete codecHelpers listClient
        { Id := "admin" } [adminBinding]
      = { ret := some (.other "Unexpected ID format: admin"), d := { Id := "admin" },
          srv := [adminBinding], calls := [] } :=
  ⟨by decide,
   malformed_id_is_local_error codecHelpers listClient { Id := "admin" } [adminBinding]
     (.other "Unexpected ID format: admin") (by decide)⟩

/-! ## Flatten converters -/

/-- Writing index `pre.length` of `pre ++ x :: rest` replaces `x`. -/
theorem set_append_cons {α : Type} (pre : List α) (x y : α) (rest : List α) :
    (pre ++ x :: rest).set pre.length y = pre ++ y :: rest := by
  induction pre with
  | nil => rfl
  | cons p pre ih => simp [ih]

/-- Updating index `pre.length` of `pre ++ x :: rest` rewrites `x`. -/
theorem updateAt_append_cons {α : Type} (pre : List α) (x : α) (rest : List α) (f : α → α) :
    updateAt (pre ++ x :: rest) pre.length f = pre ++ f x :: rest := by
  induction pre with
  | nil => rfl
  | cons p pre ih => simp [updateAt, ih]

/-- The loop of `flattenSubjects`, started at index `pre.length` on a slice whose first
`pre.length` slots are filled, fills the remaining slots in order. -/
theorem flattenSubjectsLoop_fills (rest : List Subject) (pre : List Value) :
    StructuresRbac.flattenSubjectsLoop rest pre.length
        (pre ++ List.replicate rest.length Value.nil)
      = pre ++ rest.map (fun v => Value.map (StructuresRbac.flattenSubject v)) := by
  induction rest generalizing pre with
  | nil => simp [StructuresRbac.flattenSubjectsLoop]
  | cons v rest ih =>
    have h := ih (pre ++ [Value.map (StructuresRbac.flattenSubject v)])
    simp only [List.length_append, List.length_singleton, List.append_assoc,
      List.singleton_append] at h
    simp only [StructuresRbac.flattenSubjectsLoop, List.length_cons, List.replicate_succ,
      set_append_cons, List.map_cons]
    exact h

/-- `flattenSubjects` is the element-wise flattening of its input. -/
theorem flattenSubjects_eq_map (inp : Slice Subject) :
    StructuresRbac.flattenSubjects inp
      = inp.toList.map (fun v => Value.map (StructuresRbac.flattenSubject v)) := by
  have h := flattenSubjectsLoop_fills inp.toList []
  simpa [StructuresRbac.flattenSubjects, Slice.len] using h

/-- The keys and values of the map built for one subject. -/
theorem flattenSubject_fields (v : Subject) :
    (mapHas (StructuresRbac.flattenSubject v) "api_group" = true ↔ v.APIGroup ≠ "") ∧
    (v.APIGroup ≠ "" → mapIndex (StructuresRbac.flattenSubject v) "api_group"
        = .str v.APIGroup) ∧
    mapHas (StructuresRbac.flattenSubject v) "kind" = true ∧
    mapIndex (StructuresRbac.flattenSubject v) "kind" = .str v.Kind ∧
    mapHas (StructuresRbac.flattenSubject v) "name" = true ∧
    mapIndex (StructuresRbac.flattenSubject v) "name" = .str v.Name ∧
    mapHas (StructuresRbac.flattenSubject v) "namespace" = true ∧
    mapIndex (StructuresRbac.flattenSubject v) "namespace" = .str v.Namespace ∧
    (∀ k, mapHas (StructuresRbac.flattenSubject v) k = true →
      k = "kind" ∨ k = "api_group" ∨ k = "name" ∨ k = "namespace") := by
  by_cases hg : v.APIGroup = ""
  · simp [StructuresRbac.flattenSubject, hg, mapSet, mapHas, mapIndex, List.lookup]
    intro k hk
    by_contra hne
    simp only [not_or] at hne
    obtain ⟨h1, h2, h3, h4⟩ := hne
    simp [beq_eq_false_iff_ne.mpr h1, beq_eq_false_iff_ne.mpr h2,
      beq_eq_false_iff_ne.mpr h3, beq_eq_false_iff_ne.mpr h4] at hk
  · simp [StructuresRbac.flattenSubject, hg, mapSet, mapHas, mapIndex, List.lookup]
    intro k hk
    by_contra hne
    simp only [not_or] at hne
    obtain ⟨h1, h2, h3, h4⟩ := hne
    simp [beq_eq_false_iff_ne.mpr h1, beq_eq_false_iff_ne.mpr h2,
      beq_eq_false_iff_ne.mpr h3, beq_eq_false_iff_ne.mpr h4] at hk

/-- C4: the map `flattenSubjects` produces for a subject `v` (at any position `i` of the
input) has the key `api_group` exactly when `v.APIGroup` is non-empty, always has the keys
`kind`, `name` and `namespace` bound to the values of `v` (so an empty namespace is kept as
the empty string), and has no other key; for the subject `User` / `alice` with empty
namespace and API group the output map is exactly `kind`, `name`, `namespace`. -/
theorem flattenSubjects_omits_empty_api_group_keeps_namespace (inp : Slice Subject) (i : Nat)
    (v : Subject) (hv : inp.toList[i]? = some v) :
    (∃ obj, (StructuresRbac.flattenSubjects inp)[i]? = some (.map obj) ∧
      (mapHas obj "api_group" = true ↔ v.APIGroup ≠ "") ∧
      (v.APIGroup ≠ "" → mapIndex obj "api_group" = .str v.APIGroup) ∧
      mapHas obj "kind" = true ∧ mapIndex obj "kind" = .str v.Kind ∧
      mapHas obj "name" = true ∧ mapIndex obj "name" = .str v.Name ∧
      mapHas obj "namespace" = true ∧ mapIndex obj "namespace" = .str v.Namespace ∧
      (∀ k, mapHas obj k = true →
        k = "kind" ∨ k = "api_group" ∨ k = "name" ∨ k = "namespace")) ∧
    StructuresRbac.flattenSubjects
        (.mk [{ Kind := "User", Name := "alice", Namespace := "", APIGroup := "" }])
      = [.map [("kind", .str "User"), ("name", .str "alice"), ("namespace", .str "")]] := by
  refine ⟨⟨StructuresRbac.flattenSubject v, ?_, flattenSubject_fields v⟩, by decide⟩
  rw [flattenSubjects_eq_map, List.getElem?_map, hv]
  rfl

/-- C4 at the second of two subjects, a service account with an empty API group. -/
theorem flattenSubjects_omits_empty_api_group_keeps_namespace_witness :
    (Slice.mk [({ Kind := "Group", APIGroup := "rbac.authorization.k8s.io",
                  Name := "ops" } : Subject),
               { Kind := "ServiceAccount", Name := "builder", Namespace := "ci" }]).toList[1]?
      = some { Kind := "ServiceAccount", Name := "builder", Namespace := "ci" } ∧
    ∃ obj, (StructuresRbac.flattenSubjects
        (.mk [{ Kind := "Group", APIGroup := "rbac.authorization.k8s.io", Name := "ops" },
              { Kind := "ServiceAccount", Name := "builder", Namespace := "ci" }]))[1]?
        = some (.map obj) ∧
      mapHas obj "api_group" = false ∧ mapIndex obj "namespace" = .str "ci" :=
  ⟨by decide,
   match (flattenSubjects_omits_empty_api_group_keeps_namespace
      (.mk [{ Kind := "Group", APIGroup := "rbac.authorization.k8s.io", Name := "ops" },
            { Kind := "ServiceAccount", Name := "builder", Namespace := "ci" }]) 1
      { Kind := "ServiceAccount", Name := "builder", Namespace := "ci" } (by decide)).1 with
   | ⟨obj, hobj, hgroup, _, _, _, _, _, _, hns, _⟩ =>
     ⟨obj, hobj, by
        cases hh : mapHas obj "api_group" with
        | false => rfl
        | true => exact absurd rfl (hgroup.mp hh), hns⟩⟩

/-- C5, as stated, fails: the role ref `ClusterRole` / `admin` has an empty API group, and
the map `flattenRoleRef` builds for it has the key `api_group`, bound to the empty string. -/
theorem flattenRoleRef_empty_api_group_counterexample :
    ({ APIGroup := "", Kind := "ClusterRole", Name := "admin" } : RoleRef).APIGroup = "" ∧
    StructuresRbac.flattenRoleRef { APIGroup := "", Kind := "ClusterRole", Name := "admin" }
      = .map [("api_group", .str ""), ("kind", .str "ClusterRole"), ("name", .str "admin")] ∧
    mapHas [("api_group", .str ""), ("kind", .str "ClusterRole"), ("name", .str "admin")]
      "api_group" = true := by
  decide

/-- C5, amended: for every role ref the map produced by `flattenRoleRef` has exactly the keys
`api_group`, `kind` and `name`, bound to the fields of the role ref; an empty API group is
kept as the empty string. -/
theorem flattenRoleRef_keeps_every_field (r : RoleRef) :
    ∃ att, StructuresRbac.flattenRoleRef r = .map att ∧
      mapHas att "api_group" = true ∧ mapIndex att "api_group" = .str r.APIGroup ∧
      mapHas att "kind" = true ∧ mapIndex att "kind" = .str r.Kind ∧
      mapHas att "name" = true ∧ mapIndex att "name" = .str r.Name ∧
      (∀ k, mapHas att k = true → k = "api_group" ∨ k = "kind" ∨ k = "name") := by
  refine ⟨_, rfl, ?_⟩
  simp [mapSet, mapHas, mapIndex, List.lookup]
  intro k hk
  by_contra hne
  simp only [not_or] at hne
  obtain ⟨h1, h2, h3⟩ := hne
  simp [beq_eq_false_iff_ne.mpr h1, beq_eq_false_iff_ne.mpr h2,
    beq_eq_false_iff_ne.mpr h3] at hk

/-- C6: `flattenSubjects(in)` has exactly `len(in)` elements and its `i`-th element is the
map built from `in[i]`, for every index: the output is the element-wise image of the input,
so no subject is dropped, duplicated or reordered. -/
theorem flattenSubjects_preserves_length_and_order (inp : Slice Subject) :
    (StructuresRbac.flattenSubjects inp).length = inp.len ∧
    (∀ (i : Nat) (v : Subject), inp.toList[i]? = some v →
      (StructuresRbac.flattenSubjects inp)[i]?
        = some (Value.map (StructuresRbac.flattenSubject v))) ∧
    (∀ i : Nat, inp.toList[i]? = none → (StructuresRbac.flattenSubjects inp)[i]? = none) ∧
    StructuresRbac.flattenSubjects inp
      = inp.toList.map (fun v => Value.map (StructuresRbac.flattenSubject v)) := by
  rw [flattenSubjects_eq_map]
  refine ⟨by simp [Slice.len], ?_, ?_, rfl⟩
  · intro i v hv
    rw [List.getElem?_map, hv]
    rfl
  · intro i hi
    rw [List.getElem?_map, hi]
    rfl

/-! ## Expand converters -/

/-- One pass of the tolerant loop body over a zero slot fills it with `expandedSubject`. -/
theorem tolerant_step_fills (subject : Attrs) (pre rest : List Subject) :
    StructuresRbac.expandSubjectStep subject pre.length (pre ++ ({} : Subject) :: rest)
      = pre ++ StructuresRbac.expandedSubject subject :: rest := by
  unfold StructuresRbac.expandSubjectStep StructuresRbac.expandedSubject
  cases asString (mapIndex subject "kind") <;>
    cases asString (mapIndex subject "api_group") <;>
    cases asString (mapIndex subject "name") <;>
    cases asString (mapIndex subject "namespace") <;>
    simp [updateAt_append_cons]

/-- The tolerant loop over a list of maps fills the remaining zero slots in order. -/
theorem tolerant_loop_fills (ms : List Attrs) (pre : List Subject) :
    StructuresRbac.expandSubjectsLoop (ms.map Value.map) pre.length
        (pre ++ List.replicate ms.length ({} : Subject))
      = .ok (pre ++ ms.map StructuresRbac.expandedSubject) := by
  induction ms generalizing pre with
  | nil => simp [StructuresRbac.expandSubjectsLoop]
  | cons m ms ih =>
    have h := ih (pre ++ [StructuresRbac.expandedSubject m])
    simp only [List.length_append, List.length_singleton, List.append_assoc,
      List.singleton_append] at h
    simp only [List.map_cons, StructuresRbac.expandSubjectsLoop, assertMap, List.length_cons,
      List.replicate_succ, tolerant_step_fills]
    exact h

/-- The tolerant loop returns only when every element holds a map. -/
theorem tolerant_loop_ok_maps (s : List Value) (i : Nat) (subjects su : List Subject)
    (h : StructuresRbac.expandSubjectsLoop s i subjects = .ok su) :
    ∃ ms : List Attrs, s = ms.map Value.map := by
  induction s generalizing i subjects with
  | nil => exact ⟨[], rfl⟩
  | cons v rest ih =>
    cases v with
    | map m =>
      simp only [StructuresRbac.expandSubjectsLoop, assertMap] at h
      obtain ⟨ms, hms⟩ := ih _ _ h
      exact ⟨m :: ms, by simp [hms]⟩
    | _ => simp [StructuresRbac.expandSubjectsLoop, assertMap] at h

/-- The tolerant `expandSubjects` on a list of maps is the element-wise `expandedSubject`. -/
theorem tolerant_expandSubjects_maps (ms : List Attrs) :
    StructuresRbac.expandSubjects (ms.map Value.map)
      = .ok (.mk (ms.map StructuresRbac.expandedSubject)) := by
  cases ms with
  | nil => rfl
  | cons m ms =>
    have h := tolerant_loop_fills (m :: ms) []
    simp only [List.length_nil, List.nil_append] at h
    simp only [StructuresRbac.expandSubjects, List.length_map, h]
    simp

/-- One pass of the assertion-based loop body over a zero slot fills it with the asserted
subject, or panics as `assertedSubject` does. -/
theorem asserted_step_fills (v : Value) (pre rest : List Subject) :
    ResourceClusterRoleBinding.expandSubjectStep v pre.length (pre ++ ({} : Subject) :: rest)
      = match ResourceClusterRoleBinding.assertedSubject v with
        | .error p => .error p
        | .ok x => .ok (pre ++ x :: rest) := by
  unfold ResourceClusterRoleBinding.expandSubjectStep
    ResourceClusterRoleBinding.assertedSubject
  cases assertMap v with
  | error p => rfl
  | ok sub =>
    simp only [bind, Except.bind, pure, Except.pure]
    cases assertString (mapIndex sub "api_group") with
    | error p => rfl
    | ok apiGroup =>
      simp only []
      cases assertString (mapIndex sub "kind") with
      | error p => rfl
      | ok kind =>
        simp only []
        cases assertString (mapIndex sub "name") with
        | error p => rfl
        | ok name =>
          simp only []
          cases assertString (mapIndex sub "namespace") with
          | error p => rfl
          | ok ns => simp [updateAt_append_cons]

/-- The assertion-based loop fills the remaining zero slots in order, or panics as
`assertedSubjects` does. -/
theorem asserted_loop_fills (s : List Value) (pre : List Subject) :
    ResourceClusterRoleBinding.expandSubjectsLoop s pre.length
        (pre ++ List.replicate s.length ({} : Subject))
      = match ResourceClusterRoleBinding.assertedSubjects s with
        | .error p => .error p
        | .ok xs => .ok (pre ++ xs) := by
  induction s generalizing pre with
  | nil => simp [ResourceClusterRoleBinding.expandSubjectsLoop,
      ResourceClusterRoleBinding.assertedSubjects]
  | cons v rest ih =>
    simp only [ResourceClusterRoleBinding.expandSubjectsLoop, List.length_cons,
      List.replicate_succ, asserted_step_fills,
      ResourceClusterRoleBinding.assertedSubjects]
    cases ResourceClusterRoleBinding.assertedSubject v with
    | error p => rfl
    | ok x =>
      have h := ih (pre ++ [x])
      simp only [List.length_append, List.length_singleton, List.append_assoc,
        List.singleton_append] at h
      simp only [h]
      cases ResourceClusterRoleBinding.assertedSubjects rest with
      | error p => rfl
      | ok xs => rfl

/-- The assertion-based `expandSubjects` in terms of `assertedSubjects`. -/
theorem asserted_expandSubjects_eq (s : List Value) :
    ResourceClusterRoleBinding.expandSubjects s
      = match ResourceClusterRoleBinding.assertedSubjects s with
        | .error p => .error p
        | .ok xs => .ok (.mk xs) := by
  cases s with
  | nil => rfl
  | cons v rest =>
    have h := asserted_loop_fills (v :: rest) []
    simp only [List.length_nil, List.nil_append] at h
    simp only [ResourceClusterRoleBinding.expandSubjects, h]
    cases ResourceClusterRoleBinding.assertedSubjects (v :: rest) with
    | error p => simp
    | ok xs => simp

/-- When `assertedSubjects` returns, it returns one subject per element, in order. -/
theorem assertedSubjects_ok_index (s : List Value) (xs : List Subject)
    (h : ResourceClusterRoleBinding.assertedSubjects s = .ok xs) :
    xs.length = s.length ∧
    ∀ (i : Nat) (v : Value), s[i]? = some v →
      ∃ x, xs[i]? = some x ∧ ResourceClusterRoleBinding.assertedSubject v = .ok x := by
  induction s generalizing xs with
  | nil =>
    simp only [ResourceClusterRoleBinding.assertedSubjects, Except.ok.injEq] at h
    subst h
    simp
  | cons w rest ih =>
    simp only [ResourceClusterRoleBinding.assertedSubjects] at h
    cases hw : ResourceClusterRoleBinding.assertedSubject w with
    | error p => simp [hw] at h
    | ok x =>
      cases hr : ResourceClusterRoleBinding.assertedSubjects rest with
      | error p => simp [hw, hr] at h
      | ok ys =>
        simp only [hw, hr, Except.ok.injEq] at h
        subst h
        obtain ⟨hlen, hidx⟩ := ih ys hr
        refine ⟨by simp [hlen], ?_⟩
        intro i v hv
        cases i with
        | zero =>
          simp only [List.getElem?_cons_zero, Option.some.injEq] at hv
          subst hv
          exact ⟨x, by simp, hw⟩
        | succ j =>
          simp only [List.getElem?_cons_succ] at hv
          simpa using hidx j v hv

/-- On a map holding strings under all four keys, `assertedSubject` returns and agrees with
the tolerant `expandedSubject`. -/
theorem assertedSubject_of_strings (m : Attrs) (hm : HasSubjectStrings m) :
    ResourceClusterRoleBinding.assertedSubject (.map m)
      = .ok (StructuresRbac.expandedSubject m) := by
  obtain ⟨kind, name, ns, apiGroup, hk, hn, hs, hg⟩ := hm
  simp [ResourceClusterRoleBinding.assertedSubject, StructuresRbac.expandedSubject, assertMap,
    assertString, asString, hk, hn, hs, hg]

/-- On a list of maps holding strings under all four keys, `assertedSubjects` returns the
element-wise `expandedSubject`. -/
theorem assertedSubjects_of_strings (ms : List Attrs) (hms : ∀ m ∈ ms, HasSubjectStrings m) :
    ResourceClusterRoleBinding.assertedSubjects (ms.map Value.map)
      = .ok (ms.map StructuresRbac.expandedSubject) := by
  induction ms with
  | nil => rfl
  | cons m ms ih =>
    have h1 := assertedSubject_of_strings m (hms m (by simp))
    have h2 := ih (fun x hx => hms x (by simp [hx]))
    simp [ResourceClusterRoleBinding.assertedSubjects, h1, h2]

/-- The tolerant reading of a key copies a string and yields the empty string otherwise. -/
theorem copiedOrZero_getD (m : Attrs) (k : String) :
    CopiedOrZero m k ((asString (mapIndex m k)).getD "") := by
  refine ⟨?_, ?_, ?_⟩
  · intro s hs
    simp [hs, asString]
  · intro hk
    have hnone : List.lookup k m = none := by
      cases hl : List.lookup k m with
      | none => rfl
      | some w => simp [mapHas, hl] at hk
    simp [mapIndex, hnone, asString]
  · intro hne
    cases hv : mapIndex m k with
    | str s => exact absurd hv (hne s)
    | _ => simp [asString]

/-- C8: on every list of subject maps the tolerant `expandSubjects` of `structures_rbac.go`
returns (it does not panic), with one subject per map, and in each subject every field
whose key is absent from the map, or bound to a non-string, is the empty string, while a
key bound to a string is copied unchanged. -/
theorem expandSubjects_tolerates_absent_keys (ms : List Attrs) :
    ∃ su, StructuresRbac.expandSubjects (ms.map Value.map) = .ok su ∧
      su.len = ms.length ∧
      ∀ (i : Nat) (m : Attrs), ms[i]? = some m →
        ∃ x, su.toList[i]? = some x ∧
          CopiedOrZero m "kind" x.Kind ∧ CopiedOrZero m "api_group" x.APIGroup ∧
          CopiedOrZero m "name" x.Name ∧ CopiedOrZero m "namespace" x.Namespace := by
  refine ⟨_, tolerant_expandSubjects_maps ms, by simp [Slice.len, Slice.toList], ?_⟩
  intro i m hm
  refine ⟨StructuresRbac.expandedSubject m, by simp [Slice.toList, hm], ?_⟩
  exact ⟨copiedOrZero_getD m "kind", copiedOrZero_getD m "api_group",
    copiedOrZero_getD m "name", copiedOrZero_getD m "namespace"⟩

/-- C8 on a map with only `kind` and `name`, and with a non-string `namespace`. -/
theorem expandSubjects_tolerates_absent_keys_witness :
    StructuresRbac.expandSubjects
        [.map [("kind", .str "User"), ("name", .str "alice"), ("namespace", .int 7)], .map []]
      = .ok (.mk [{ Kind := "User", APIGroup := "", Name := "alice", Namespace := "" },
                  { Kind := "", APIGroup := "", Name := "", Namespace := "" }]) ∧
    ∃ su, StructuresRbac.expandSubjects
        ([[("kind", .str "User"), ("name", .str "alice"), ("namespace", .int 7)], []].map
          Value.map) = .ok su ∧ su.len = 2 :=
  ⟨by decide,
   match expandSubjects_tolerates_absent_keys
      [[("kind", .str "User"), ("name", .str "alice"), ("namespace", .int 7)], []] with
   | ⟨su, hsu, hlen, _⟩ => ⟨su, hsu, hlen⟩⟩

/-- C3: for every list of subject maps in which `kind`, `name`, `namespace` and `api_group`
are all present as strings, `flattenSubjects(expandSubjects(s))` has the length of `s` and,
position by position, the output map has the same `kind`, `name` and `namespace` as the input
map; its `api_group` key is absent exactly when the input `api_group` is the empty string,
and otherwise holds the input value. -/
theorem expand_then_flatten_subjects (ms : List Attrs)
    (hms : ∀ m ∈ ms, HasSubjectStrings m) :
    ∃ su, StructuresRbac.expandSubjects (ms.map Value.map) = .ok su ∧
      (StructuresRbac.flattenSubjects su).length = ms.length ∧
      ∀ (i : Nat) (m : Attrs), ms[i]? = some m →
        ∃ obj, (StructuresRbac.flattenSubjects su)[i]? = some (.map obj) ∧
          mapHas obj "kind" = true ∧ mapIndex obj "kind" = mapIndex m "kind" ∧
          mapHas obj "name" = true ∧ mapIndex obj "name" = mapIndex m "name" ∧
          mapHas obj "namespace" = true ∧
          mapIndex obj "namespace" = mapIndex m "namespace" ∧
          (mapHas obj "api_group" = false ↔ mapIndex m "api_group" = .str "") ∧
          (mapHas obj "api_group" = true →
            mapIndex obj "api_group" = mapIndex m "api_group") := by
  refine ⟨_, tolerant_expandSubjects_maps ms, ?_, ?_⟩
  · simp [flattenSubjects_eq_map, Slice.toList]
  · intro i m hm
    have hmem : m ∈ ms := List.getElem?_mem hm
    obtain ⟨kind, name, ns, apiGroup, hk, hn, hs, hg⟩ := hms m hmem
    obtain ⟨f1, f2, f3, f4, f5, f6, f7, f8, _⟩ :=
      flattenSubject_fields (StructuresRbac.expandedSubject m)
    refine ⟨StructuresRbac.flattenSubject (StructuresRbac.expandedSubject m), ?_,
      f3, ?_, f5, ?_, f7, ?_, ?_, ?_⟩
    · simp [flattenSubjects_eq_map, Slice.toList, hm]
    · rw [f4, hk]; simp [StructuresRbac.expandedSubject, hk, asString]
    · rw [f6, hn]; simp [StructuresRbac.expandedSubject, hn, asString]
    · rw [f8, hs]; simp [StructuresRbac.expandedSubject, hs, asString]
    · have hx : (StructuresRbac.expandedSubject m).APIGroup = apiGroup := by
        simp [StructuresRbac.expandedSubject, hg, asString]
      rw [hx] at f1
      rw [hg]
      constructor
      · intro hfalse
        by_cases he : apiGroup = ""
        · rw [he]
        · rw [f1.mpr he] at hfalse
          exact absurd hfalse (by decide)
      · intro heq
        have he : apiGroup = "" := by simpa using heq
        cases hh : mapHas (StructuresRbac.flattenSubject (StructuresRbac.expandedSubject m))
            "api_group" with
        | false => rfl
        | true => exact absurd he (f1.mp hh)
    · intro hh
      have hx : (StructuresRbac.expandedSubject m).APIGroup = apiGroup := by
        simp [StructuresRbac.expandedSubject, hg, asString]
      rw [f2 (f1.mp hh), hx, hg]

/-- C3 on a two-element configuration: a group with an API group and a service account whose
`api_group` is the empty string. -/
theorem expand_then_flatten_subjects_witness :
    (∀ m ∈ ([[("kind", .str "Group"), ("name", .str "ops"), ("namespace", .str ""),
               ("api_group", .str "rbac.authorization.k8s.io")],
              [("kind", .str "ServiceAccount"), ("name", .str "builder"),
               ("namespace", .str "ci"), ("api_group", .str "")]] : List Attrs),
        HasSubjectStrings m) ∧
    ∃ su, StructuresRbac.expandSubjects
        ([[("kind", .str "Group"), ("name", .str "ops"), ("namespace", .str ""),
           ("api_group", .str "rbac.authorization.k8s.io")],
          [("kind", .str "ServiceAccount"), ("name", .str "builder"),
           ("namespace", .str "ci"), ("api_group", .str "")]].map Value.map) = .ok su ∧
      (StructuresRbac.flattenSubjects su).length = 2 :=
  have hms : ∀ m ∈ ([[("kind", .str "Group"), ("name", .str "ops"), ("namespace", .str ""),
               ("api_group", .str "rbac.authorization.k8s.io")],
              [("kind", .str "ServiceAccount"), ("name", .str "builder"),
               ("namespace", .str "ci"), ("api_group", .str "")]] : List Attrs),
        HasSubjectStrings m := by
    intro m hm
    simp only [List.mem_cons, List.mem_singleton, List.not_mem_nil, or_false] at hm
    rcases hm with rfl | rfl
    · exact ⟨"Group", "ops", "", "rbac.authorization.k8s.io", rfl, rfl, rfl, rfl⟩
    · exact ⟨"ServiceAccount", "builder", "ci", "", rfl, rfl, rfl, rfl⟩
  ⟨hms,
   match expand_then_flatten_subjects _ hms with
   | ⟨su, hsu, hlen, _⟩ => ⟨su, hsu, hlen⟩⟩

/-- C7: on the empty list both definitions of `expandSubjects` return an empty slice that is
not nil. On every list of maps the tolerant definition returns, and the assertion-based one
returns on every list of maps holding strings under all four keys. Whenever either returns,
the result is not nil, has as many subjects as the input has elements, and its `i`-th subject
is the expansion of the `i`-th element, for every index. -/
theorem expandSubjects_empty_not_nil_and_length :
    (StructuresRbac.expandSubjects [] = .ok (.mk []) ∧
      ResourceClusterRoleBinding.expandSubjects [] = .ok (.mk []) ∧
      (Slice.mk ([] : List Subject)).isNil = false ∧ (Slice.mk ([] : List Subject)).len = 0) ∧
    (∀ ms : List Attrs, ∃ su, StructuresRbac.expandSubjects (ms.map Value.map) = .ok su) ∧
    (∀ ms : List Attrs, (∀ m ∈ ms, HasSubjectStrings m) →
      ∃ su, ResourceClusterRoleBinding.expandSubjects (ms.map Value.map) = .ok su) ∧
    (∀ (s : List Value) (su : Slice Subject), StructuresRbac.expandSubjects s = .ok su →
      su.isNil = false ∧ su.len = s.length ∧
      ∀ (i : Nat) (v : Value), s[i]? = some v →
        ∃ x, su.toList[i]? = some x ∧ StructuresRbac.expandSubjects [v] = .ok (.mk [x])) ∧
    (∀ (s : List Value) (su : Slice Subject),
      ResourceClusterRoleBinding.expandSubjects s = .ok su →
      su.isNil = false ∧ su.len = s.length ∧
      ∀ (i : Nat) (v : Value), s[i]? = some v →
        ∃ x, su.toList[i]? = some x ∧
          ResourceClusterRoleBinding.expandSubjects [v] = .ok (.mk [x])) := by
  refine ⟨⟨rfl, rfl, rfl, rfl⟩, ?_, ?_, ?_, ?_⟩
  · intro ms
    exact ⟨_, tolerant_expandSubjects_maps ms⟩
  · intro ms hms
    refine ⟨.mk (ms.map StructuresRbac.expandedSubject), ?_⟩
    rw [asserted_expandSubjects_eq, assertedSubjects_of_strings ms hms]
  · intro s su hsu
    have hmaps : ∃ ms : List Attrs, s = ms.map Value.map := by
      by_cases h0 : s.length = 0
      · exact ⟨[], by simpa using h0⟩
      · simp only [StructuresRbac.expandSubjects, h0, if_false] at hsu
        cases hl : StructuresRbac.expandSubjectsLoop s 0
            (List.replicate s.length ({} : Subject)) with
        | error p => simp [hl] at hsu
        | ok xs => exact tolerant_loop_ok_maps s 0 _ xs hl
    obtain ⟨ms, rfl⟩ := hmaps
    rw [tolerant_expandSubjects_maps] at hsu
    simp only [Except.ok.injEq] at hsu
    subst hsu
    refine ⟨rfl, by simp [Slice.len, Slice.toList], ?_⟩
    intro i v hv
    rw [List.getElem?_map] at hv
    cases hm : ms[i]? with
    | none => simp [hm] at hv
    | some m =>
      simp only [hm, Option.map_some', Option.some.injEq] at hv
      subst hv
      refine ⟨StructuresRbac.expandedSubject m, by simp [Slice.toList, hm], ?_⟩
      exact tolerant_expandSubjects_maps [m]
  · intro s su hsu
    rw [asserted_expandSubjects_eq] at hsu
    cases hxs : ResourceClusterRoleBinding.assertedSubjects s with
    | error p => simp [hxs] at hsu
    | ok xs =>
      simp only [hxs, Except.ok.injEq] at hsu
      subst hsu
      obtain ⟨hlen, hidx⟩ := assertedSubjects_ok_index s xs hxs
      refine ⟨rfl, by simpa [Slice.len, Slice.toList] using hlen, ?_⟩
      intro i v hv
      obtain ⟨x, hx, hv1⟩ := hidx i v hv
      refine ⟨x, by simpa [Slice.toList] using hx, ?_⟩
      rw [asserted_expandSubjects_eq]
      simp [ResourceClusterRoleBinding.assertedSubjects, hv1]

/-- C7 run on a two-element list holding all four keys: both definitions return the two
subjects in input order, and the second subject is the expansion of the second element. -/
theorem expandSubjects_empty_not_nil_and_length_witness :
    StructuresRbac.expandSubjects
        [.map [("kind", .str "Group"), ("name", .str "ops"), ("namespace", .str ""),
               ("api_group", .str "rbac.authorization.k8s.io")],
         .map [("kind", .str "User"), ("name", .str "alice"), ("namespace", .str ""),
               ("api_group", .str "")]]
      = .ok (.mk [{ Kind := "Group", APIGroup := "rbac.authorization.k8s.io", Name := "ops" },
                  { Kind := "User", Name := "alice" }]) ∧
    ∃ x, (Slice.mk [({ Kind := "Group", APIGroup := "rbac.authorization.k8s.io",
                       Name := "ops" } : Subject),
                    { Kind := "User", Name := "alice" }]).toList[1]? = some x ∧
      ResourceClusterRoleBinding.expandSubjects
        [.map [("kind", .str "User"), ("name", .str "alice"), ("namespace", .str ""),
               ("api_group", .str "")]] = .ok (.mk [x]) :=
  ⟨by decide,
   (expandSubjects_empty_not_nil_and_length.2.2.2.2
      [.map [("kind", .str "Group"), ("name", .str "ops"), ("namespace", .str ""),
             ("api_group", .str "rbac.authorization.k8s.io")],
       .map [("kind", .str "User"), ("name", .str "alice"), ("namespace", .str ""),
             ("api_group", .str "")]]
      (.mk [{ Kind := "Group", APIGroup := "rbac.authorization.k8s.io", Name := "ops" },
            { Kind := "User", Name := "alice" }])
      (by decide)).2.2 1 _ (by decide)⟩

/-- C9: the role ref map with only `name`, which the declared schema accepts (`api_group`
is optional and `kind` is not declared), makes `expandRoleRef` panic at its first unchecked
assertion, in both files; so does a map with `name` and `api_group` but no `kind`. Only a
map holding all three keys as strings is expanded. -/
theorem expandRoleRef_panics_without_api_group_or_kind :
    ResourceClusterRoleBinding.expandRoleRef [("name", .str "admin")]
      = .error (.interfaceConversion "string") ∧
    StructuresRbac.expandRoleRef [("name", .str "admin")]
      = .error (.interfaceConversion "string") ∧
    ResourceClusterRoleBinding.expandRoleRef
        [("name", .str "admin"), ("api_group", .str "rbac.authorization.k8s.io")]
      = .error (.interfaceConversion "string") ∧
    ResourceClusterRoleBinding.expandRoleRef
        [("name", .str "admin"), ("api_group", .str "rbac.authorization.k8s.io"),
         ("kind", .str "ClusterRole")]
      = .ok { APIGroup := "rbac.authorization.k8s.io", Kind := "ClusterRole",
              Name := "admin" } := by
  decide

/-- The role ref converters of `structures_rbac.go` are paired: `expandRoleRef` asserts the
three keys that `flattenRoleRef` always writes, so expanding a flattened role ref returns it,
also when its API group is empty. -/
theorem expandRoleRef_flattenRoleRef (r : RoleRef) :
    ∃ att, StructuresRbac.flattenRoleRef r = .map att ∧
      StructuresRbac.expandRoleRef att = .ok r := by
  refine ⟨_, rfl, ?_⟩
  simp [StructuresRbac.expandRoleRef, mapSet, mapIndex, List.lookup, assertString, bind,
    Except.bind, pure, Except.pure]

/-! ## Delete, Create and Read: sequencing of the client calls -/

/-- C11: for an identifier that parses to `name`, when the server delete succeeds `Delete`
returns no error and sets the identifier to the empty string, and when the server delete
fails it returns exactly the client's error and leaves the resource data, identifier
included, unchanged. Either way the only client call is that delete. -/
theorem delete_clears_id_or_returns_client_error {σ : Type} (h : Helpers)
    (conn : Clientset σ) (d : ResourceData) (srv : σ) (ns name : String)
    (hid : h.idParts d.Id = .ok (ns, name)) :
    (∀ srv1, conn.Delete name srv = (none, srv1) →
      resourceKubernetesClusterRoleBindingDelete h conn d srv
        = { ret := none, d := { d with Id := "" }, srv := srv1, calls := [.delete name] }) ∧
    (∀ err srv1, conn.Delete name srv = (some err, srv1) →
      resourceKubernetesClusterRoleBindingDelete h conn d srv
        = { ret := some err, d := d, srv := srv1, calls := [.delete name] }) := by
  unfold resourceKubernetesClusterRoleBindingDelete
  rw [hid]
  constructor
  · intro srv1 hdel
    simp [hdel, ResourceData.SetId]
  · intro err srv1 hdel
    simp [hdel]

/-- C11 run twice on the identifier `/admin`: against the reference server holding the
binding the identifier is cleared, against a failing client the 500 error comes back and the
identifier stays. -/
theorem delete_clears_id_or_returns_client_error_witness :
    codecHelpers.idParts ({ Id := "/admin" } : ResourceData).Id = .ok ("", "admin") ∧
    resourceKubernetesClusterRoleBindingDelete codecHelpers listClient
        { Id := "/admin" } [adminBinding]
      = { ret := none, d := { Id := "" }, srv := [], calls := [.delete "admin"] } ∧
    resourceKubernetesClusterRoleBindingDelete codecHelpers
        (failingClient (.status 500 "internal error")) { Id := "/admin" } ()
      = { ret := some (.status 500 "internal error"), d := { Id := "/admin" }, srv := (),
          calls := [.delete "admin"] } :=
  ⟨by decide,
   (delete_clears_id_or_returns_client_error codecHelpers listClient { Id := "/admin" }
      [adminBinding] "" "admin" (by decide)).1 [] (by decide),
   (delete_clears_id_or_returns_client_error codecHelpers
      (failingClient (.status 500 "internal error")) { Id := "/admin" } () "" "admin"
      (by decide)).2 _ () rfl⟩

/-- `Read` never changes the identifier of the resource data. -/
theorem read_keeps_id {σ : Type} (h : Helpers) (conn : Clientset σ) (d : ResourceData)
    (srv : σ) : (resourceKubernetesClusterRoleBindingRead h conn d srv).d.Id = d.Id := by
  unfold resourceKubernetesClusterRoleBindingRead
  cases h.idParts d.Id with
  | error err => rfl
  | ok pr =>
    obtain ⟨ns, name⟩ := pr
    simp only []
    rcases hget : conn.Get name srv with ⟨r, srv1⟩
    cases r with
    | error err => rfl
    | ok crb =>
      simp only [ResourceData.Set]
      cases h.setError "metadata" (h.flattenMetadata crb.ObjectMeta d) with
      | none => rfl
      | some err => rfl

/-- Sequencing of `Create` on a configuration whose `role_ref` and `subject` expand to
`roleRef` and `subjects`: the object holding the expanded metadata, `roleRef` and `subjects`
is submitted to server-create. If server-create fails, `Create` returns exactly the server's
error, leaves the resource data (identifier included) unchanged and makes no further call,
so no read. If server-create succeeds with `out`, `Create` sets the identifier to
`buildId(out.ObjectMeta)` and its return value, resource data and server state are those of
`Read` run on that identifier, whose calls follow the create. -/
theorem create_submits_then_reads {σ : Type} (h : Helpers)
    (expandSubjects : List Value → Except Panic (Slice Subject)) (conn : Clientset σ)
    (d : ResourceData) (srv : σ) (metadataCfg : List Value) (roleRefCfg : Attrs)
    (subjectCfg : List Value) (roleRef : RoleRef) (subjects : Slice Subject)
    (hmeta : d.Get "metadata" = .list metadataCfg)
    (hrole : d.Get "role_ref" = .map roleRefCfg)
    (hsubj : d.Get "subject" = .list subjectCfg)
    (hroleRef : ResourceClusterRoleBinding.expandRoleRef roleRefCfg = .ok roleRef)
    (hsubjects : expandSubjects subjectCfg = .ok subjects) :
    (∀ err srv1,
      conn.Create { ObjectMeta := h.expandMetadata metadataCfg, RoleRef := roleRef,
                    Subjects := subjects } srv = (.error err, srv1) →
      resourceKubernetesClusterRoleBindingCreate h expandSubjects conn d srv
        = .ok { ret := some err, d := d, srv := srv1,
                calls := [.create { ObjectMeta := h.expandMetadata metadataCfg,
                                    RoleRef := roleRef, Subjects := subjects }] }) ∧
    (∀ out srv1,
      conn.Create { ObjectMeta := h.expandMetadata metadataCfg, RoleRef := roleRef,
                    Subjects := subjects } srv = (.ok out, srv1) →
      ∃ o, resourceKubernetesClusterRoleBindingCreate h expandSubjects conn d srv = .ok o ∧
        o.d.Id = h.buildId out.ObjectMeta ∧
        o.ret = (resourceKubernetesClusterRoleBindingRead h conn
          { d with Id := h.buildId out.ObjectMeta } srv1).ret ∧
        o.d = (resourceKubernetesClusterRoleBindingRead h conn
          { d with Id := h.buildId out.ObjectMeta } srv1).d ∧
        o.srv = (resourceKubernetesClusterRoleBindingRead h conn
          { d with Id := h.buildId out.ObjectMeta } srv1).srv ∧
        o.calls = .create { ObjectMeta := h.expandMetadata metadataCfg, RoleRef := roleRef,
                            Subjects := subjects } ::
          (resourceKubernetesClusterRoleBindingRead h conn
            { d with Id := h.buildId out.ObjectMeta } srv1).calls) := by
  unfold resourceKubernetesClusterRoleBindingCreate
  simp only [hmeta, hrole, hsubj, assertList, assertMap, hroleRef, hsubjects]
  constructor
  · intro err srv1 hc
    simp [hc]
  · intro out srv1 hc
    simp only [hc]
    exact ⟨_, rfl, read_keeps_id h conn _ srv1, rfl, rfl, rfl, rfl⟩

/-- The sequencing of `Create` run on the configuration of `admin`: on an empty reference
server the binding is created, the identifier becomes `/admin` and the read follows; on a
server that already holds `admin` the 409 error of server-create comes back, with the
identifier still empty and no read. -/
theorem create_submits_then_reads_witness :
    (adminConfig.Get "metadata" = .list [.map [("name", .str "admin")]] ∧
      ResourceClusterRoleBinding.expandRoleRef
          [("api_group", .str "rbac.authorization.k8s.io"), ("kind", .str "ClusterRole"),
           ("name", .str "cluster-admin")] = .ok adminBinding.RoleRef ∧
      ResourceClusterRoleBinding.expandSubjects
          [.map [("api_group", .str ""), ("kind", .str "User"), ("name", .str "alice"),
                 ("namespace", .str "")]] = .ok adminBinding.Subjects) ∧
    resourceKubernetesClusterRoleBindingCreate configHelpers
        ResourceClusterRoleBinding.expandSubjects listClient adminConfig [adminBinding]
      = .ok { ret := some (.status 409 "already exists"), d := adminConfig,
              srv := [adminBinding], calls := [.create adminBinding] } ∧
    ∃ o, resourceKubernetesClusterRoleBindingCreate configHelpers
        ResourceClusterRoleBinding.expandSubjects listClient adminConfig [] = .ok o ∧
      o.d.Id = "/admin" ∧ o.ret = none ∧ o.srv = [adminBinding] ∧
      o.calls = [.create adminBinding, .get "admin"] :=
  ⟨by decide,
   (create_submits_then_reads configHelpers ResourceClusterRoleBinding.expandSubjects
      listClient adminConfig [adminBinding] _ _ _ adminBinding.RoleRef adminBinding.Subjects
      rfl rfl rfl (by decide) (by decide)).1 _ _ (by decide),
   match (create_submits_then_reads configHelpers ResourceClusterRoleBinding.expandSubjects
      listClient adminConfig [] _ _ _ adminBinding.RoleRef adminBinding.Subjects
      rfl rfl rfl (by decide) (by decide)).2 adminBinding [adminBinding] (by decide) with
   | ⟨o, ho, hid, hret, _, hsrv, hcalls⟩ =>
     ⟨o, ho, hid.trans (by decide), hret.trans (by decide), hsrv.trans (by decide),
      hcalls.trans (by decide)⟩⟩

/-- A successful `Read` stores the flattened metadata and nothing else: every other
attribute, `role_ref` and `subject` among them, keeps the value it had before the read. -/
theorem read_sets_metadata_only {σ : Type} (h : Helpers) (conn : Clientset σ)
    (d : ResourceData) (srv : σ)
    (hret : (resourceKubernetesClusterRoleBindingRead h conn d srv).ret = none) :
    ∃ ns name crb srv1, h.idParts d.Id = .ok (ns, name) ∧
      conn.Get name srv = (.ok crb, srv1) ∧
      (resourceKubernetesClusterRoleBindingRead h conn d srv).d
        = { d with attrs := mapSet d.attrs "metadata" (h.flattenMetadata crb.ObjectMeta d) } := by
  unfold resourceKubernetesClusterRoleBindingRead at hret ⊢
  cases hid : h.idParts d.Id with
  | error err => simp [hid] at hret
  | ok pr =>
    obtain ⟨ns, name⟩ := pr
    simp only [hid] at hret ⊢
    rcases hget : conn.Get name srv with ⟨r, srv1⟩
    cases r with
    | error err => simp [hget] at hret
    | ok crb =>
      simp only [hget, ResourceData.Set] at hret ⊢
      cases hset : h.setError "metadata" (h.flattenMetadata crb.ObjectMeta d) with
      | some err => simp [hset] at hret
      | none => exact ⟨ns, name, crb, srv1, rfl, hget, rfl⟩

/-- C13 at a failing input: the state `/admin` holds `role_ref` named `view` and an empty
`subject` list, the server holds `admin` bound to `cluster-admin` with the subject `alice`.
`Read` succeeds and stores the metadata, but `role_ref` and `subject` keep their old values,
which are not the flattened role ref and subjects of the server object. -/
theorem read_leaves_role_ref_and_subject_stale :
    (resourceKubernetesClusterRoleBindingRead codecHelpers listClient
        { Id := "/admin",
          attrs := [("role_ref", .map [("name", .str "view")]), ("subject", .list [])] }
        [adminBinding])
      = { ret := none,
          d := { Id := "/admin",
                 attrs := [("role_ref", .map [("name", .str "view")]), ("subject", .list []),
                           ("metadata", codecHelpers.flattenMetadata adminBinding.ObjectMeta
                              { Id := "/admin" })] },
          srv := [adminBinding], calls := [.get "admin"] } ∧
    StructuresRbac.flattenRoleRef adminBinding.RoleRef
      = .map [("api_group", .str "rbac.authorization.k8s.io"), ("kind", .str "ClusterRole"),
              ("name", .str "cluster-admin")] ∧
    Value.list (StructuresRbac.flattenSubjects adminBinding.Subjects)
      = .list [.map [("kind", .str "User"), ("name", .str "alice"), ("namespace", .str "")]] ∧
    Value.map [("name", .str "view")] ≠ StructuresRbac.flattenRoleRef adminBinding.RoleRef ∧
    Value.list [] ≠ Value.list (StructuresRbac.flattenSubjects adminBinding.Subjects) := by
  decide

/-- C12 at a failing input: on the configuration of `admin` whose `role_ref` gives only
`name`, `Create` panics in `expandRoleRef` at `in["api_group"].(string)`, with either
declaration of `expandSubjects`, on an empty server and on a failing client alike: nothing is
submitted to server-create, no error of the server is returned and no identifier is set. The
same configuration with `api_group` and `kind` given is submitted and read back. -/
theorem create_panics_on_role_ref_without_api_group :
    nameOnlyRoleRefConfig.Get "role_ref" = .map [("name", .str "cluster-admin")] ∧
    ResourceClusterRoleBinding.expandRoleRef [("name", .str "cluster-admin")]
      = .error (.interfaceConversion "string") ∧
    resourceKubernetesClusterRoleBindingCreate configHelpers
        ResourceClusterRoleBinding.expandSubjects listClient nameOnlyRoleRefConfig []
      = .error (.interfaceConversion "string") ∧
    resourceKubernetesClusterRoleBindingCreate configHelpers
        StructuresRbac.expandSubjects listClient nameOnlyRoleRefConfig []
      = .error (.interfaceConversion "string") ∧
    resourceKubernetesClusterRoleBindingCreate configHelpers
        StructuresRbac.expandSubjects (failingClient (.status 500 "internal error"))
        nameOnlyRoleRefConfig ()
      = .error (.interfaceConversion "string") ∧
    resourceKubernetesClusterRoleBindingCreate configHelpers
        StructuresRbac.expandSubjects listClient adminConfig []
      = .ok { ret := none,
              d := { Id := "/admin",
                     attrs := mapSet adminConfig.attrs "metadata"
                       (.list [.map [("name", .str "admin"), ("namespace", .str "")]]) },
              srv := [adminBinding],
              calls := [.create adminBinding, .get "admin"] } := by
  decide

/-! ## Identifier codec -/

/-- A piece without a slash is not split. -/
theorem splitSlash_no_slash (b : List Char) (hb : '/' ∉ b) : splitSlash b = [b] := by
  induction b with
  | nil => rfl
  | cons c cs ih =>
    have hc : c ≠ '/' := fun e => hb (by simp [e])
    have hcs : '/' ∉ cs := fun e => hb (by simp [e])
    simp [splitSlash, hc, ih hcs]

/-- A slash after a piece without a slash ends that piece. -/
theorem splitSlash_append_slash (a b : List Char) (ha : '/' ∉ a) :
    splitSlash (a ++ '/' :: b) = a :: splitSlash b := by
  induction a with
  | nil => simp [splitSlash]
  | cons c cs ih =>
    have hc : c ≠ '/' := fun e => ha (by simp [e])
    have hcs : '/' ∉ cs := fun e => ha (by simp [e])
    simp [splitSlash, hc, ih hcs]

/-- C16: for every namespace and name without a slash, `idParts` of the identifier `buildId`
builds from metadata with that namespace and name succeeds and returns exactly
`(namespace, name)`; this covers the empty namespace of cluster role bindings, whose
identifier is `/name`, so that `Read`, `Exists` and `Delete` run on that identifier call the
client with the name of the stored object. -/
theorem idParts_buildId_roundtrip (m : ObjectMeta) (hns : '/' ∉ m.Namespace.data)
    (hname : '/' ∉ m.Name.data) :
    idParts (buildId m) = .ok (m.Namespace, m.Name) ∧
    (m.Namespace = "" → buildId m = "/" ++ m.Name) ∧
    ∀ {σ : Type} (h : Helpers) (conn : Clientset σ) (d : ResourceData) (srv : σ),
      h.idParts = idParts →
      (resourceKubernetesClusterRoleBindingRead h conn { d with Id := buildId m } srv).calls
        = [.get m.Name] ∧
      (resourceKubernetesClusterRoleBindingExists h conn { d with Id := buildId m } srv).calls
        = [.get m.Name] ∧
      (resourceKubernetesClusterRoleBindingDelete h conn { d with Id := buildId m } srv).calls
        = [.delete m.Name] := by
  have hparts : idParts (buildId m) = .ok (m.Namespace, m.Name) := by
    have hsplit : splitSlash (buildId m).data = [m.Namespace.data, m.Name.data] := by
      have hdata : (buildId m).data = m.Namespace.data ++ '/' :: m.Name.data := by
        simp [buildId]
      rw [hdata, splitSlash_append_slash _ _ hns, splitSlash_no_slash _ hname]
    simp [idParts, hsplit]
  refine ⟨hparts, ?_, ?_⟩
  · intro h0
    simp [buildId, h0]
  · intro σ h conn d srv hh
    refine ⟨?_, ?_, ?_⟩
    · unfold resourceKubernetesClusterRoleBindingRead
      simp only [hh, hparts]
      rcases hget : conn.Get m.Name srv with ⟨r, srv1⟩
      cases r with
      | error err => rfl
      | ok crb =>
        simp only []
        cases hset : ResourceData.Set h { d with Id := buildId m } "metadata"
            (h.flattenMetadata crb.ObjectMeta { d with Id := buildId m }) with
        | mk e d1 => cases e <;> rfl
    · unfold resourceKubernetesClusterRoleBindingExists
      simp only [hh, hparts]
      rcases hget : conn.Get m.Name srv with ⟨r, srv1⟩
      cases r with
      | ok crb => rfl
      | error err =>
        cases err with
        | other msg => rfl
        | status code msg =>
          by_cases hc : code = 404
          · simp [hc]
          · simp [hc]
    · unfold resourceKubernetesClusterRoleBindingDelete
      simp only [hh, hparts]
      rcases hdel : conn.Delete m.Name srv with ⟨e, srv1⟩
      cases e <;> rfl

/-- C16 for the cluster role binding `admin`, whose namespace is empty. -/
theorem idParts_buildId_roundtrip_witness :
    '/' ∉ ({ Name := "admin" } : ObjectMeta).Namespace.data ∧
    '/' ∉ ({ Name := "admin" } : ObjectMeta).Name.data ∧
    buildId { Name := "admin" } = "/admin" ∧
    idParts (buildId { Name := "admin" }) = .ok ("", "admin") :=
  ⟨by decide, by decide, by decide,
   (idParts_buildId_roundtrip { Name := "admin" } (by decide) (by decide)).1⟩

/-! ## Delete followed by Exists -/

/-- After the reference server deleted `name`, `Get name` answers with a 404 status error. -/
theorem listClient_get_after_delete (srv : List ClusterRoleBinding) (name : String) :
    listClient.Get name (srv.filter (fun o => !(o.ObjectMeta.Name == name)))
      = (.error (.status 404 "not found"),
         srv.filter (fun o => !(o.ObjectMeta.Name == name))) := by
  have hnone : (srv.filter (fun o => !(o.ObjectMeta.Name == name))).find?
      (fun o => o.ObjectMeta.Name == name) = none := by
    rw [List.find?_eq_none]
    intro x hx
    simp only [List.mem_filter] at hx
    simpa using hx.2
  simp only [listClient, hnone]

/-- C15, as stated, fails: on the reference server holding `admin`, `Delete` of the state
`/admin` succeeds and clears the identifier, and `Exists` on the resulting resource data
stops at `idParts` of the empty identifier: it returns `(false, err)` with that error, not
`(false, nil)`, and does not call the client. -/
theorem delete_then_exists_counterexample :
    codecHelpers.idParts ({ Id := "/admin" } : ResourceData).Id = .ok ("", "admin") ∧
    resourceKubernetesClusterRoleBindingDelete codecHelpers listClient
        { Id := "/admin" } [adminBinding]
      = { ret := none, d := { Id := "" }, srv := [], calls := [.delete "admin"] } ∧
    resourceKubernetesClusterRoleBindingExists codecHelpers listClient { Id := "" } []
      = { ret := (false, some (.other "Unexpected ID format: ")), d := { Id := "" },
          srv := [], calls := [] } ∧
    (resourceKubernetesClusterRoleBindingExists codecHelpers listClient { Id := "" } []).ret
      ≠ (false, none) := by
  decide

/-- C15, amended: over the reference server, for every state whose identifier parses to a
name the server holds, `Delete` succeeds, removes the name from the server and clears the
identifier; `Exists` asked with the identifier the state had before the delete then returns
`(false, nil)`, while `Exists` on the resource data `Delete` left, whose identifier is empty
and does not parse, returns `(false, err)` with the error of `idParts` and makes no client
call. -/
theorem delete_then_exists_with_former_id (h : Helpers) (d : ResourceData)
    (srv : List ClusterRoleBinding) (ns name : String) (e : Error)
    (hid : h.idParts d.Id = .ok (ns, name))
    (hstored : srv.any (fun o => o.ObjectMeta.Name == name) = true)
    (hempty : h.idParts "" = .error e) :
    resourceKubernetesClusterRoleBindingDelete h listClient d srv
      = { ret := none, d := { d with Id := "" },
          srv := srv.filter (fun o => !(o.ObjectMeta.Name == name)),
          calls := [.delete name] } ∧
    (resourceKubernetesClusterRoleBindingExists h listClient d
        (resourceKubernetesClusterRoleBindingDelete h listClient d srv).srv).ret
      = (false, none) ∧
    resourceKubernetesClusterRoleBindingExists h listClient
        (resourceKubernetesClusterRoleBindingDelete h listClient d srv).d
        (resourceKubernetesClusterRoleBindingDelete h listClient d srv).srv
      = { ret := (false, some e), d := { d with Id := "" },
          srv := srv.filter (fun o => !(o.ObjectMeta.Name == name)), calls := [] } := by
  have hdel : resourceKubernetesClusterRoleBindingDelete h listClient d srv
      = { ret := none, d := { d with Id := "" },
          srv := srv.filter (fun o => !(o.ObjectMeta.Name == name)),
          calls := [.delete name] } := by
    unfold resourceKubernetesClusterRoleBindingDelete
    have hd : listClient.Delete name srv
        = (none, srv.filter (fun o => !(o.ObjectMeta.Name == name))) := by
      simp only [listClient, hstored, if_true]
    simp only [hid, hd, ResourceData.SetId]
  refine ⟨hdel, ?_, ?_⟩
  · rw [hdel]
    unfold resourceKubernetesClusterRoleBindingExists
    simp only [hid, listClient_get_after_delete]
    simp
  · rw [hdel]
    unfold resourceKubernetesClusterRoleBindingExists
    simp only [hempty]

/-- C15, amended, on the reference server holding `admin` and the state `/admin`. -/
theorem delete_then_exists_with_former_id_witness :
    (codecHelpers.idParts ({ Id := "/admin" } : ResourceData).Id = .ok ("", "admin") ∧
      [adminBinding].any (fun o => o.ObjectMeta.Name == "admin") = true ∧
      codecHelpers.idParts "" = .error (.other "Unexpected ID format: ")) ∧
    (resourceKubernetesClusterRoleBindingExists codecHelpers listClient { Id := "/admin" }
        (resourceKubernetesClusterRoleBindingDelete codecHelpers listClient
          { Id := "/admin" } [adminBinding]).srv).ret = (false, none) :=
  ⟨by decide,
   (delete_then_exists_with_former_id codecHelpers { Id := "/admin" } [adminBinding] ""
      "admin" (.other "Unexpected ID format: ") (by decide) (by decide) (by decide)).2.1⟩

/-! ## Flatten then expand, and the two definitions of `expandSubjects` -/

/-- The tolerant loop body reads back exactly the subject a flattened map was built from. -/
theorem expandedSubject_flattenSubject (v : Subject) :
    StructuresRbac.expandedSubject (StructuresRbac.flattenSubject v) = v := by
  by_cases hg : v.APIGroup = ""
  · simp [StructuresRbac.expandedSubject, StructuresRbac.flattenSubject, hg, mapSet, mapIndex,
      List.lookup, asString]
    cases v
    simp_all
  · simp [StructuresRbac.expandedSubject, StructuresRbac.flattenSubject, hg, mapSet, mapIndex,
      List.lookup, asString]

/-- C17: for every list of subjects `x`, the tolerant `expandSubjects` applied to
`flattenSubjects(x)` returns, and returns a non-nil slice whose elements are those of `x`,
in order; the empty list (nil or not) is mapped to an empty slice. -/
theorem flatten_then_expand_subjects (x : Slice Subject) :
    StructuresRbac.expandSubjects (StructuresRbac.flattenSubjects x) = .ok (.mk x.toList) ∧
    (∀ su, StructuresRbac.expandSubjects (StructuresRbac.flattenSubjects x) = .ok su →
      su.len = x.len ∧ ∀ i : Nat, su.toList[i]? = x.toList[i]?) := by
  have hmain : StructuresRbac.expandSubjects (StructuresRbac.flattenSubjects x)
      = .ok (.mk x.toList) := by
    have hmap : StructuresRbac.flattenSubjects x
        = (x.toList.map StructuresRbac.flattenSubject).map Value.map := by
      rw [flattenSubjects_eq_map, List.map_map]
      rfl
    rw [hmap, tolerant_expandSubjects_maps, List.map_map]
    have hid : (StructuresRbac.expandedSubject ∘ StructuresRbac.flattenSubject) = id := by
      funext v
      exact expandedSubject_flattenSubject v
    rw [hid, List.map_id]
  refine ⟨hmain, ?_⟩
  intro su hsu
  rw [hmain] at hsu
  simp only [Except.ok.injEq] at hsu
  subst hsu
  exact ⟨rfl, fun _ => rfl⟩

/-- A key under which `m[k]` holds a string is a key of `m`. -/
theorem mapHas_of_mapIndex_str (m : Attrs) (k s : String) (hs : mapIndex m k = .str s) :
    mapHas m k = true := by
  cases hl : List.lookup k m with
  | none => simp [mapIndex, hl] at hs
  | some w => simp [mapHas, hl]

/-- An unchecked string assertion returns only on a string. -/
theorem assertString_ok (v : Value) (s : String) (hv : assertString v = .ok s) :
    v = .str s := by
  cases v with
  | str t =>
    simp only [assertString, Except.ok.injEq] at hv
    rw [hv]
  | _ => simp [assertString] at hv

/-- The assertion-based loop body returns only on a map that has all four keys. -/
theorem assertedSubject_ok_has_keys (m : Attrs) (x : Subject)
    (hx : ResourceClusterRoleBinding.assertedSubject (.map m) = .ok x) :
    mapHas m "api_group" = true ∧ mapHas m "kind" = true ∧ mapHas m "name" = true ∧
      mapHas m "namespace" = true := by
  simp only [ResourceClusterRoleBinding.assertedSubject, assertMap] at hx
  cases h1 : assertString (mapIndex m "api_group") with
  | error p => simp [h1] at hx
  | ok g =>
    cases h2 : assertString (mapIndex m "kind") with
    | error p => simp [h1, h2] at hx
    | ok k =>
      cases h3 : assertString (mapIndex m "name") with
      | error p => simp [h1, h2, h3] at hx
      | ok n =>
        cases h4 : assertString (mapIndex m "namespace") with
        | error p => simp [h1, h2, h3, h4] at hx
        | ok s =>
          exact ⟨mapHas_of_mapIndex_str _ _ _ (assertString_ok _ _ h1),
            mapHas_of_mapIndex_str _ _ _ (assertString_ok _ _ h2),
            mapHas_of_mapIndex_str _ _ _ (assertString_ok _ _ h3),
            mapHas_of_mapIndex_str _ _ _ (assertString_ok _ _ h4)⟩

/-- C18: the two definitions of `expandSubjects` return the same result on every list of
maps holding `api_group`, `kind`, `name` and `namespace` as strings. On a list with an
element that lacks one of these keys the assertion-based definition panics, while the
tolerant one returns and leaves the field of each missing key at its zero value; such an
element is the map `flattenSubjects` produces for a subject with an empty API group. -/
theorem expandSubjects_definitions_agree_on_full_maps :
    (∀ ms : List Attrs, (∀ m ∈ ms, HasSubjectStrings m) →
      ∃ su, ResourceClusterRoleBinding.expandSubjects (ms.map Value.map) = .ok su ∧
        StructuresRbac.expandSubjects (ms.map Value.map) = .ok su) ∧
    (∀ (ms : List Attrs) (i : Nat) (m : Attrs), ms[i]? = some m →
      (mapHas m "api_group" = false ∨ mapHas m "kind" = false ∨ mapHas m "name" = false ∨
        mapHas m "namespace" = false) →
      (∃ p, ResourceClusterRoleBinding.expandSubjects (ms.map Value.map) = .error p) ∧
      ∃ su x, StructuresRbac.expandSubjects (ms.map Value.map) = .ok su ∧
        su.toList[i]? = some x ∧
        (mapHas m "api_group" = false → x.APIGroup = "") ∧
        (mapHas m "kind" = false → x.Kind = "") ∧
        (mapHas m "name" = false → x.Name = "") ∧
        (mapHas m "namespace" = false → x.Namespace = "")) ∧
    (ResourceClusterRoleBinding.expandSubjects
        (StructuresRbac.flattenSubjects (.mk [{ Kind := "User", Name := "alice" }]))
      = .error (.interfaceConversion "string") ∧
     StructuresRbac.expandSubjects
        (StructuresRbac.flattenSubjects (.mk [{ Kind := "User", Name := "alice" }]))
      = .ok (.mk [{ Kind := "User", Name := "alice" }])) := by
  refine ⟨?_, ?_, by decide⟩
  · intro ms hms
    refine ⟨.mk (ms.map StructuresRbac.expandedSubject), ?_, tolerant_expandSubjects_maps ms⟩
    rw [asserted_expandSubjects_eq, assertedSubjects_of_strings ms hms]
  · intro ms i m hm hmiss
    constructor
    · rw [asserted_expandSubjects_eq]
      cases hxs : ResourceClusterRoleBinding.assertedSubjects (ms.map Value.map) with
      | error p => exact ⟨p, rfl⟩
      | ok xs =>
        exfalso
        have hv : (ms.map Value.map)[i]? = some (Value.map m) := by
          rw [List.getElem?_map, hm]
          rfl
        obtain ⟨x, _, hx⟩ := (assertedSubjects_ok_index _ xs hxs).2 i _ hv
        obtain ⟨k1, k2, k3, k4⟩ := assertedSubject_ok_has_keys m x hx
        rcases hmiss with h | h | h | h
        · rw [k1] at h; exact absurd h (by decide)
        · rw [k2] at h; exact absurd h (by decide)
        · rw [k3] at h; exact absurd h (by decide)
        · rw [k4] at h; exact absurd h (by decide)
    · refine ⟨_, StructuresRbac.expandedSubject m, tolerant_expandSubjects_maps ms,
        by simp [Slice.toList, hm], ?_, ?_, ?_, ?_⟩
      · exact (copiedOrZero_getD m "api_group").2.1
      · exact (copiedOrZero_getD m "kind").2.1
      · exact (copiedOrZero_getD m "name").2.1
      · exact (copiedOrZero_getD m "namespace").2.1

/-- C18 on a single map with all four keys, and on a single map without `api_group`. -/
theorem expandSubjects_definitions_agree_on_full_maps_witness :
    (ResourceClusterRoleBinding.expandSubjects
        [.map [("api_group", .str ""), ("kind", .str "User"), ("name", .str "alice"),
               ("namespace", .str "")]]
      = StructuresRbac.expandSubjects
        [.map [("api_group", .str ""), ("kind", .str "User"), ("name", .str "alice"),
               ("namespace", .str "")]]) ∧
    ∃ p, ResourceClusterRoleBinding.expandSubjects
        ([[("kind", .str "User"), ("name", .str "alice"), ("namespace", .str "")]].map
          Value.map) = .error p :=
  ⟨by decide,
   (expandSubjects_definitions_agree_on_full_maps.2.1
      [[("kind", .str "User"), ("name", .str "alice"), ("namespace", .str "")]] 0
      [("kind", .str "User"), ("name", .str "alice"), ("namespace", .str "")] (by decide)
      (Or.inl (by decide))).1⟩

/-! ## Stateful set update strategy -/

/-- The conversion `int32(n)` lands in the 32-bit range, differs from `n` by a multiple of
`2^32`, and is the identity exactly on the 32-bit range. -/
theorem toInt32_spec (n : Int) :
    IsInt32 (toInt32 n) ∧ (toInt32 n - n) % 2 ^ 32 = 0 ∧ (toInt32 n = n ↔ IsInt32 n) := by
  unfold toInt32 IsInt32
  norm_num
  omega

/-- C20: for every integer partition `p` given in a rolling update block,
`expandRollingUpdateStatefulSetStrategy` returns and stores `int32(p)`, which is `p` reduced
modulo `2^32` into the signed 32-bit range; `flattenStatefulSetStrategyRollingUpdate` of the
result yields that stored value as the partition, which is `p` exactly when
`-2^31 <= p <= 2^31 - 1` and a different value for every other `p`. -/
theorem partition_wraps_to_int32 (inp : Attrs) (p : Int)
    (hp : List.lookup "partition" inp = some (.int p)) :
    ∃ ru, StructuresStatefulSet.expandRollingUpdateStatefulSetStrategy [.map inp] = .ok ru ∧
      ru.Partition = some (toInt32 p) ∧
      IsInt32 (toInt32 p) ∧ (toInt32 p - p) % 2 ^ 32 = 0 ∧
      StructuresStatefulSet.flattenStatefulSetStrategyRollingUpdate ru
        = [.map [("partition", .int (toInt32 p))]] ∧
      (StructuresStatefulSet.flattenStatefulSetStrategyRollingUpdate ru
          = [.map [("partition", .int p)]] ↔ IsInt32 p) := by
  obtain ⟨h1, h2, h3⟩ := toInt32_spec p
  refine ⟨{ Partition := some (toInt32 p) }, ?_, rfl, h1, h2, rfl, ?_⟩
  · simp [StructuresStatefulSet.expandRollingUpdateStatefulSetStrategy, assertMap, hp,
      assertInt, ptrToInt32]
  · rw [← h3]
    simp [StructuresStatefulSet.flattenStatefulSetStrategyRollingUpdate, mapSet]

/-- C20 on the partitions `2^31` and `7`: the first is stored and flattened as `-2^31`, the
second is kept. -/
theorem partition_wraps_to_int32_witness :
    List.lookup "partition" ([("partition", .int 2147483648)] : Attrs)
      = some (.int 2147483648) ∧
    (∃ ru, StructuresStatefulSet.expandRollingUpdateStatefulSetStrategy
        [.map [("partition", .int 2147483648)]] = .ok ru ∧
      ru.Partition = some (toInt32 2147483648)) ∧
    toInt32 2147483648 = -2147483648 ∧
    StructuresStatefulSet.flattenStatefulSetStrategyRollingUpdate
        { Partition := some (-2147483648) } = [.map [("partition", .int (-2147483648))]] ∧
    StructuresStatefulSet.expandRollingUpdateStatefulSetStrategy [.map [("partition", .int 7)]]
      = .ok { Partition := some 7 } :=
  ⟨by decide,
   match partition_wraps_to_int32 [("partition", .int 2147483648)] 2147483648
      (by decide) with
   | ⟨ru, hru, hpart, _⟩ => ⟨ru, hru, hpart⟩,
   by decide, by decide, by decide⟩

/-- C14, as stated, fails: the block with type `OnDelete` and a rolling update block with
partition 1 is expanded to a strategy without rolling update, so flattening it yields a
block without `rolling_update`. -/
theorem update_strategy_roundtrip_counterexample :
    StructuresStatefulSet.expandStatefulSetUpdateStrategy
        [.map [("type", .str "OnDelete"),
               ("rolling_update", .list [.map [("partition", .int 1)]])]]
      = .ok { Type_ := "OnDelete", RollingUpdate := none } ∧
    StructuresStatefulSet.flattenStatefulSetUpdateStrategy
        { Type_ := "OnDelete", RollingUpdate := none } {}
      = [.map [("type", .strategyType "OnDelete")]] ∧
    mapHas [("type", .strategyType "OnDelete")] "rolling_update" = false := by
  decide

/-- C14, amended: for every update strategy block with a string type `t`, expanding and then
flattening returns one block whose type is `t`, held as a `StatefulSetUpdateStrategyType`,
when `t` is not empty, and which has no `type` key when `t` is empty. When `t` is not
`RollingUpdate` the output has no `rolling_update` key, whatever the input holds under that
key. When `t` is `RollingUpdate`: an input without the key `rolling_update` gives an output
without it; an input whose `rolling_update` list starts with a block holding an integer
partition `n` that fits in 32 bits gives a `rolling_update` of one block with partition `n`;
an input whose `rolling_update` list is empty, or starts with nil or with a block without
partition, gives a `rolling_update` of one empty block. -/
theorem update_strategy_expand_then_flatten (m : Attrs) (t : String) (d : ResourceData)
    (ht : List.lookup "type" m = some (.str t)) :
    (t ≠ "RollingUpdate" →
      ∃ obj out, StructuresStatefulSet.expandStatefulSetUpdateStrategy [.map m] = .ok obj ∧
        StructuresStatefulSet.flattenStatefulSetUpdateStrategy obj d = [.map out] ∧
        (t ≠ "" → List.lookup "type" out = some (.strategyType t)) ∧
        (t = "" → mapHas out "type" = false) ∧
        mapHas out "rolling_update" = false) ∧
    (t = "RollingUpdate" → List.lookup "rolling_update" m = none →
      ∃ obj out, StructuresStatefulSet.expandStatefulSetUpdateStrategy [.map m] = .ok obj ∧
        StructuresStatefulSet.flattenStatefulSetUpdateStrategy obj d = [.map out] ∧
        List.lookup "type" out = some (.strategyType t) ∧
        mapHas out "rolling_update" = false) ∧
    (t = "RollingUpdate" →
      ∀ (r : Attrs) (rest : List Value) (n : Int),
        List.lookup "rolling_update" m = some (.list (.map r :: rest)) →
        List.lookup "partition" r = some (.int n) → IsInt32 n →
        ∃ obj out, StructuresStatefulSet.expandStatefulSetUpdateStrategy [.map m] = .ok obj ∧
          StructuresStatefulSet.flattenStatefulSetUpdateStrategy obj d = [.map out] ∧
          List.lookup "type" out = some (.strategyType t) ∧
          List.lookup "rolling_update" out
            = some (.list [.map [("partition", .int n)]])) ∧
    (t = "RollingUpdate" →
      ∀ l : List Value, List.lookup "rolling_update" m = some (.list l) →
        (l = [] ∨ (∃ rest, l = Value.nil :: rest) ∨
          (∃ r rest, l = Value.map r :: rest ∧ List.lookup "partition" r = none)) →
        ∃ obj out, StructuresStatefulSet.expandStatefulSetUpdateStrategy [.map m] = .ok obj ∧
          StructuresStatefulSet.flattenStatefulSetUpdateStrategy obj d = [.map out] ∧
          List.lookup "type" out = some (.strategyType t) ∧
          List.lookup "rolling_update" out = some (.list [.map []])) := by
  refine ⟨?_, ?_, ?_, ?_⟩
  · intro hr
    by_cases h0 : t = ""
    · subst h0
      refine ⟨{ Type_ := "" }, [], ?_, ?_, ?_⟩
      · simp [StructuresStatefulSet.expandStatefulSetUpdateStrategy, assertMap, ht,
          assertString, RollingUpdateStatefulSetStrategyType]
      · simp [StructuresStatefulSet.flattenStatefulSetUpdateStrategy]
      · simp [mapHas]
    · refine ⟨{ Type_ := t }, [("type", .strategyType t)], ?_, ?_, ?_⟩
      · simp [StructuresStatefulSet.expandStatefulSetUpdateStrategy, assertMap, ht,
          assertString, RollingUpdateStatefulSetStrategyType, hr]
      · simp [StructuresStatefulSet.flattenStatefulSetUpdateStrategy, h0, mapSet]
      · simp [mapHas, List.lookup, h0]
  · intro hr hru
    subst hr
    refine ⟨{ Type_ := "RollingUpdate" }, [("type", .strategyType "RollingUpdate")], ?_, ?_, ?_⟩
    · simp [StructuresStatefulSet.expandStatefulSetUpdateStrategy, assertMap, ht,
        assertString, RollingUpdateStatefulSetStrategyType, hru]
    · simp [StructuresStatefulSet.flattenStatefulSetUpdateStrategy, mapSet]
    · simp [mapHas, List.lookup]
  · intro hr r rest n hru hn hin
    subst hr
    refine ⟨{ Type_ := "RollingUpdate", RollingUpdate := some { Partition := some n } },
      [("type", .strategyType "RollingUpdate"),
       ("rolling_update", .list [.map [("partition", .int n)]])], ?_, ?_, ?_⟩
    · simp [StructuresStatefulSet.expandStatefulSetUpdateStrategy, assertMap, ht,
        assertString, hru, assertList, RollingUpdateStatefulSetStrategyType,
        StructuresStatefulSet.expandRollingUpdateStatefulSetStrategy, hn, assertInt,
        ptrToInt32, (toInt32_spec n).2.2.mpr hin]
    · simp [StructuresStatefulSet.flattenStatefulSetUpdateStrategy, mapSet,
        StructuresStatefulSet.flattenStatefulSetStrategyRollingUpdate]
    · simp [List.lookup]
  · intro hr l hru hl
    subst hr
    refine ⟨{ Type_ := "RollingUpdate", RollingUpdate := some { Partition := none } },
      [("type", .strategyType "RollingUpdate"), ("rolling_update", .list [.map []])],
      ?_, ?_, ?_⟩
    · rcases hl with rfl | ⟨rest, rfl⟩ | ⟨r, rest, rfl, hnone⟩
      · simp [StructuresStatefulSet.expandStatefulSetUpdateStrategy, assertMap, ht,
          assertString, hru, assertList, RollingUpdateStatefulSetStrategyType,
          StructuresStatefulSet.expandRollingUpdateStatefulSetStrategy]
      · simp [StructuresStatefulSet.expandStatefulSetUpdateStrategy, assertMap, ht,
          assertString, hru, assertList, RollingUpdateStatefulSetStrategyType,
          StructuresStatefulSet.expandRollingUpdateStatefulSetStrategy]
      · simp [StructuresStatefulSet.expandStatefulSetUpdateStrategy, assertMap, ht,
          assertString, hru, assertList, RollingUpdateStatefulSetStrategyType,
          StructuresStatefulSet.expandRollingUpdateStatefulSetStrategy, hnone]
    · simp [StructuresStatefulSet.flattenStatefulSetUpdateStrategy, mapSet,
        StructuresStatefulSet.flattenStatefulSetStrategyRollingUpdate]
    · simp [List.lookup]

/-- C14, amended, on `RollingUpdate` blocks: with partition 2 the partition comes back, and
with an empty `rolling_update` list one empty block comes back. -/
theorem update_strategy_expand_then_flatten_witness :
    (List.lookup "type" ([("type", .str "RollingUpdate"),
        ("rolling_update", .list [.map [("partition", .int 2)]])] : Attrs)
      = some (.str "RollingUpdate") ∧
     List.lookup "type" ([("type", .str "RollingUpdate"), ("rolling_update", .list [])] : Attrs)
      = some (.str "RollingUpdate")) ∧
    (∃ obj out, StructuresStatefulSet.expandStatefulSetUpdateStrategy
        [.map [("type", .str "RollingUpdate"),
               ("rolling_update", .list [.map [("partition", .int 2)]])]] = .ok obj ∧
      StructuresStatefulSet.flattenStatefulSetUpdateStrategy obj {} = [.map out] ∧
      List.lookup "type" out = some (.strategyType "RollingUpdate") ∧
      List.lookup "rolling_update" out = some (.list [.map [("partition", .int 2)]])) ∧
    (∃ obj out, StructuresStatefulSet.expandStatefulSetUpdateStrategy
        [.map [("type", .str "RollingUpdate"), ("rolling_update", .list [])]] = .ok obj ∧
      StructuresStatefulSet.flattenStatefulSetUpdateStrategy obj {} = [.map out] ∧
      List.lookup "type" out = some (.strategyType "RollingUpdate") ∧
      List.lookup "rolling_update" out = some (.list [.map []])) :=
  ⟨by decide,
   (update_strategy_expand_then_flatten
      [("type", .str "RollingUpdate"), ("rolling_update", .list [.map [("partition", .int 2)]])]
      "RollingUpdate" {} (by decide)).2.2.1 rfl [("partition", .int 2)] [] 2 (by decide)
      (by decide) (by decide),
   (update_strategy_expand_then_flatten
      [("type", .str "RollingUpdate"), ("rolling_update", .list [])]
      "RollingUpdate" {} (by decide)).2.2.2 rfl [] (by decide) (Or.inl rfl)⟩

/-- C19, as stated, fails: the strategy of type `RollingUpdate` without rolling update
parameters is flattened to a block whose type is a `StatefulSetUpdateStrategyType`, and
expanding that block panics at the assertion `v.(string)` instead of returning the
strategy. -/
theorem update_strategy_flatten_then_expand_counterexample :
    ({ Type_ := "RollingUpdate", RollingUpdate := none } : StatefulSetUpdateStrategy).RollingUpdate
      = none ∧
    StructuresStatefulSet.flattenStatefulSetUpdateStrategy
        { Type_ := "RollingUpdate", RollingUpdate := none } {}
      = [.map [("type", .strategyType "RollingUpdate")]] ∧
    StructuresStatefulSet.expandStatefulSetUpdateStrategy
        (StructuresStatefulSet.flattenStatefulSetUpdateStrategy
          { Type_ := "RollingUpdate", RollingUpdate := none } {})
      = .error (.interfaceConversion "string") := by
  decide

/-- C19, amended: for every update strategy `x`, expanding the flattened block as it is
panics at `v.(string)` when `x.Type` is not empty, because the block holds the type as a
`StatefulSetUpdateStrategyType`, and returns the strategy with empty type and no rolling
update when `x.Type` is empty. Expanding the flattened block with its type held as a plain
string returns `x` if and only if `x.RollingUpdate` is nil or `x.Type` is `RollingUpdate`;
when `x.Type` is any other value and `x.RollingUpdate` is set, the result keeps `x.Type`
and has `RollingUpdate` nil. -/
theorem update_strategy_flatten_then_expand (x : StatefulSetUpdateStrategy)
    (d : ResourceData) (hx : x.PartitionInt32) :
    (x.Type_ ≠ "" →
      StructuresStatefulSet.expandStatefulSetUpdateStrategy
        (StructuresStatefulSet.flattenStatefulSetUpdateStrategy x d)
        = .error (.interfaceConversion "string")) ∧
    (x.Type_ = "" →
      StructuresStatefulSet.expandStatefulSetUpdateStrategy
        (StructuresStatefulSet.flattenStatefulSetUpdateStrategy x d)
        = .ok { Type_ := "", RollingUpdate := none }) ∧
    (StructuresStatefulSet.expandStatefulSetUpdateStrategy
        ((StructuresStatefulSet.flattenStatefulSetUpdateStrategy x d).map typeAsString)
        = .ok x ↔ x.RollingUpdate = none ∨ x.Type_ = "RollingUpdate") ∧
    (x.Type_ ≠ "RollingUpdate" → x.RollingUpdate ≠ none →
      StructuresStatefulSet.expandStatefulSetUpdateStrategy
        ((StructuresStatefulSet.flattenStatefulSetUpdateStrategy x d).map typeAsString)
        = .ok { Type_ := x.Type_, RollingUpdate := none }) := by
  obtain ⟨t, ru⟩ := x
  cases ru with
  | none =>
    by_cases h0 : t = ""
    · subst h0
      simp [StructuresStatefulSet.expandStatefulSetUpdateStrategy,
        StructuresStatefulSet.flattenStatefulSetUpdateStrategy, assertMap, typeAsString,
        RollingUpdateStatefulSetStrategyType]
    · simp [StructuresStatefulSet.expandStatefulSetUpdateStrategy,
        StructuresStatefulSet.flattenStatefulSetUpdateStrategy, assertMap, typeAsString,
        RollingUpdateStatefulSetStrategyType, h0, mapSet, assertString, List.lookup]
  | some r =>
    obtain ⟨part⟩ := r
    have hpart : ∀ n, part = some n → toInt32 n = n := fun n hn =>
      (toInt32_spec n).2.2.mpr (hx _ n rfl (by rw [hn]))
    by_cases h0 : t = ""
    · subst h0
      have hne : ¬ ("" : String) = "RollingUpdate" := by decide
      cases part <;>
      simp [StructuresStatefulSet.expandStatefulSetUpdateStrategy,
        StructuresStatefulSet.flattenStatefulSetUpdateStrategy, assertMap, typeAsString,
        RollingUpdateStatefulSetStrategyType, mapSet, assertString, List.lookup,
        StructuresStatefulSet.flattenStatefulSetStrategyRollingUpdate, hne]
    · by_cases hr : t = "RollingUpdate"
      · subst hr
        cases part with
        | none =>
          simp [StructuresStatefulSet.expandStatefulSetUpdateStrategy,
            StructuresStatefulSet.flattenStatefulSetUpdateStrategy, assertMap, typeAsString,
            RollingUpdateStatefulSetStrategyType, mapSet, assertString, List.lookup,
            StructuresStatefulSet.flattenStatefulSetStrategyRollingUpdate, assertList,
            StructuresStatefulSet.expandRollingUpdateStatefulSetStrategy]
        | some n =>
          simp [StructuresStatefulSet.expandStatefulSetUpdateStrategy,
            StructuresStatefulSet.flattenStatefulSetUpdateStrategy, assertMap, typeAsString,
            RollingUpdateStatefulSetStrategyType, mapSet, assertString, List.lookup,
            StructuresStatefulSet.flattenStatefulSetStrategyRollingUpdate, assertList,
            StructuresStatefulSet.expandRollingUpdateStatefulSetStrategy, assertInt,
            ptrToInt32, hpart n rfl]
      · cases part <;>
        simp [StructuresStatefulSet.expandStatefulSetUpdateStrategy,
          StructuresStatefulSet.flattenStatefulSetUpdateStrategy, assertMap, typeAsString,
          RollingUpdateStatefulSetStrategyType, mapSet, assertString, List.lookup,
          StructuresStatefulSet.flattenStatefulSetStrategyRollingUpdate, h0, hr]

/-- C19, amended, on the strategy `RollingUpdate` with partition 3: the flattened block
itself makes the expander panic, and with the type held as a plain string the strategy is
returned. -/
theorem update_strategy_flatten_then_expand_witness :
    StatefulSetUpdateStrategy.PartitionInt32
        { Type_ := "RollingUpdate", RollingUpdate := some { Partition := some 3 } } ∧
    StructuresStatefulSet.expandStatefulSetUpdateStrategy
        (StructuresStatefulSet.flattenStatefulSetUpdateStrategy
          { Type_ := "RollingUpdate", RollingUpdate := some { Partition := some 3 } } {})
      = .error (.interfaceConversion "string") ∧
    StructuresStatefulSet.expandStatefulSetUpdateStrategy
        ((StructuresStatefulSet.flattenStatefulSetUpdateStrategy
          { Type_ := "RollingUpdate", RollingUpdate := some { Partition := some 3 } } {}).map
            typeAsString)
      = .ok { Type_ := "RollingUpdate", RollingUpdate := some { Partition := some 3 } } :=
  have hx : StatefulSetUpdateStrategy.PartitionInt32
      { Type_ := "RollingUpdate", RollingUpdate := some { Partition := some 3 } } := by
    intro ru n h1 h2
    simp only [Option.some.injEq] at h1
    subst h1
    simp only [Option.some.injEq] at h2
    subst h2
    decide
  ⟨hx,
   (update_strategy_flatten_then_expand
      { Type_ := "RollingUpdate", RollingUpdate := some { Partition := some 3 } } {} hx).1
      (by decide),
   (update_strategy_flatten_then_expand
      { Type_ := "RollingUpdate", RollingUpdate := some { Partition := some 3 } } {}
      hx).2.2.1.mpr (Or.inr rfl)⟩

/-- On resource data that holds no `subject`, `d.Get("subject")` is the empty list of its
declared type, so `Create` submits an object with an empty, non-nil subject list. -/
theorem create_without_subject_submits_empty_list :
    ({ attrs := [("metadata", .list [.map [("name", .str "admin")]]),
                 ("role_ref", .map [("api_group", .str "rbac.authorization.k8s.io"),
                                    ("kind", .str "ClusterRole"),
                                    ("name", .str "cluster-admin")])] } : ResourceData).Get
        "subject" = .list [] ∧
    (resourceKubernetesClusterRoleBindingCreate configHelpers
        ResourceClusterRoleBinding.expandSubjects (failingClient (.status 500 "internal error"))
        { attrs := [("metadata", .list [.map [("name", .str "admin")]]),
                    ("role_ref", .map [("api_group", .str "rbac.authorization.k8s.io"),
                                       ("kind", .str "ClusterRole"),
                                       ("name", .str "cluster-admin")])] } ())
      = .ok { ret := some (.status 500 "internal error"),
              d := { attrs := [("metadata", .list [.map [("name", .str "admin")]]),
                               ("role_ref", .map [("api_group", .str "rbac.authorization.k8s.io"),
                                                  ("kind", .str "ClusterRole"),
                                                  ("name", .str "cluster-admin")])] },
              srv := (),
              calls := [.create { ObjectMeta := { Name := "admin" },
                                  RoleRef := adminBinding.RoleRef, Subjects := .mk [] }] } := by
  decide
